import Mathlib

/-!
Verification of the pricing and inventory position engine of the
rematter-prototype-template repository, against its natural-language
specification.

Embedding conventions:
* Record ids are `Nat` (the source uses opaque string ids; only equality is
  used on them).
* Dates are `Nat`.  ISO `YYYY-MM-DD` strings compare lexicographically, which
  agrees with the numeric order of any monotone encoding.  For the pricing
  service only comparisons matter, and the absent-end sentinel `9999-12-31`
  is encoded as the numeral `99991231` (the `YYYYMMDD` reading, which
  dominates every date a store can hold).  For the inventory service dates
  are day numbers, so that the next calendar day is `+ 1`.
* An absent (`undefined`) or empty-string field, which JavaScript treats as
  falsy, is `none`.
* Quantities and prices are `Int` (the source uses IEEE numbers; the claims
  under check are exact additive identities, stated here over the integers).
* The collection store (`storage.ts` is not part of the sources provided)
  is modelled from the spec, section 6: a keyed record store over which
  `getAll` is the underlying list, `getById`/`query`/`create`/`update` are
  `find?`/`filter`/append/replace-by-key.  The generators of `schema.ts`
  (also not provided) are modelled from the spec as constructors that copy
  the supplied data and attach a fresh id; freshness is realised by a
  `nextId` counter carried in the store.
* The implicit system clock (`new Nat()`) is passed in as an explicit
  `now`/`today` parameter.
-/

namespace Rematter

/-- The `9999-12-31` sentinel substituted for an absent expiration date. -/
def farFuture : Nat := 99991231

inductive Direction where
  | buy
  | sell
deriving DecidableEq, Fintype

/-- PricingGroup record (`types`: id, name, direction, isDefault, isActive,
audit fields; only the fields the verified logic reads are carried). -/
structure PricingGroup where
  id : Nat
  name : String
  direction : Direction
  isDefault : Bool
  isActive : Bool
  updatedAt : Nat
deriving DecidableEq

/-- PriceList record: date-scoped container belonging to one pricing group. -/
structure PriceList where
  id : Nat
  pricingGroupId : Nat
  name : String
  effectiveDate : Nat
  expirationDate : Option Nat
  isActive : Bool
deriving DecidableEq

/-- NewPriceListItem record: one commodity price inside a price list. -/
structure NewPriceListItem where
  id : Nat
  priceListId : Nat
  commodityId : Nat
  price : Int
  unit : String
  currency : String
deriving DecidableEq

/-- Account, restricted to the fields the pricing service reads. -/
structure Account where
  id : Nat
  buyPricingGroupId : Option Nat
  sellPricingGroupId : Option Nat
deriving DecidableEq

/-- Commodity, restricted to the fields the two services read. -/
structure Commodity where
  id : Nat
  code : String
  name : String
  defaultUnit : Option String
  isActive : Bool
deriving DecidableEq

/-- Display record assembled by `findPriceInGroup`. -/
structure CommodityPrice where
  commodityId : Nat
  commodityName : String
  commodityCode : String
  price : Int
  unit : String
  currency : String
  priceListId : Nat
  priceListName : String
  pricingGroupId : Nat
  pricingGroupName : String
  effectiveDate : Nat
  expirationDate : Option Nat
deriving DecidableEq

/-- State read and written by the pricing service: one list per collection,
plus the fresh-id counter of the modelled id generator. -/
structure PricingStore where
  groups : List PricingGroup
  priceLists : List PriceList
  items : List NewPriceListItem
  accounts : List Account
  commodities : List Commodity
  nextId : Nat
deriving DecidableEq

/-- `getDefaultPricingGroup(direction)`: query for `direction` and
`isDefault === true`, then take the first result. -/
def getDefaultPricingGroup (st : PricingStore) (direction : Direction) :
    Option PricingGroup :=
  (st.groups.filter (fun g => g.direction == direction && g.isDefault)).head?

/-- One step of `clearDefaultForDirection`: the collection-store `update` of
group `g` to its cleared copy, applied at element `x`. -/
def clearOne (now : Nat) (g x : PricingGroup) : PricingGroup :=
  if x.id == g.id then { g with isDefault := false, updatedAt := now } else x

/-- `clearDefaultForDirection(direction)`: query the defaults of the
direction, and update each of them with `isDefault := false`. -/
def clearDefaultForDirection (st : PricingStore) (direction : Direction)
    (now : Nat) : PricingStore :=
  let defaultGroups :=
    st.groups.filter (fun g => g.direction == direction && g.isDefault)
  { st with
    groups := defaultGroups.foldl
      (fun gs g => gs.map (fun x => clearOne now g x)) st.groups }

/-- Data supplied to `createPricingGroup` (id and audit fields omitted). -/
structure PricingGroupData where
  name : String
  direction : Direction
  isDefault : Bool
  isActive : Bool
deriving DecidableEq

/-- Modelled from the spec: the `createPricingGroup` record constructor of
`schema.ts` (not under the provided sources) copies the supplied data and
attaches a freshly generated id and audit fields. -/
def newPricingGroup (data : PricingGroupData) (id : Nat) (now : Nat) :
    PricingGroup :=
  { id := id
    name := data.name
    direction := data.direction
    isDefault := data.isDefault
    isActive := data.isActive
    updatedAt := now }

/-- `createPricingGroup(data)`: when `data.isDefault`, first clear the other
defaults of the direction, then persist the new group. -/
def createPricingGroup (st : PricingStore) (data : PricingGroupData)
    (now : Nat) : PricingGroup × PricingStore :=
  let st1 :=
    if data.isDefault then clearDefaultForDirection st data.direction now
    else st
  let newGroup := newPricingGroup data st1.nextId now
  (newGroup,
    { st1 with groups := st1.groups ++ [newGroup], nextId := st1.nextId + 1 })

/-- Partial update payload of `updatePricingGroup` (`Partial<PricingGroup>`);
an absent key is `none`. -/
structure PricingGroupPatch where
  name : Option String
  direction : Option Direction
  isDefault : Option Bool
  isActive : Option Bool
deriving DecidableEq

/-- The field merge `{...existing, ...data, id, updatedAt}` of
`updatePricingGroup`. -/
def mergeGroup (existing : PricingGroup) (data : PricingGroupPatch) (id : Nat)
    (now : Nat) : PricingGroup :=
  { id := id
    name := data.name.getD existing.name
    direction := data.direction.getD existing.direction
    isDefault := data.isDefault.getD existing.isDefault
    isActive := data.isActive.getD existing.isActive
    updatedAt := now }

/-- `updatePricingGroup(id, data)`: read the existing group; if
`data.isDefault` is truthy and the existing group is not default, clear the
direction first; then store the merged record under the same id. -/
def updatePricingGroup (st : PricingStore) (id : Nat) (data : PricingGroupPatch)
    (now : Nat) : Option PricingGroup × PricingStore :=
  match st.groups.find? (fun g => g.id == id) with
  | none => (none, st)
  | some existing =>
    let st1 :=
      if data.isDefault = some true ∧ existing.isDefault = false then
        clearDefaultForDirection st existing.direction now
      else st
    let updated := mergeGroup existing data id now
    (some updated,
      { st1 with
        groups := st1.groups.map (fun x => if x.id == id then updated else x) })

/-- `setAsDefault(id)`: read the group, clear its direction, then update it
with `isDefault := true`. -/
def setAsDefault (st : PricingStore) (id : Nat) (now : Nat) :
    Option PricingGroup × PricingStore :=
  match st.groups.find? (fun g => g.id == id) with
  | none => (none, st)
  | some group =>
    let st1 := clearDefaultForDirection st group.direction now
    updatePricingGroup st1 id
      { name := none, direction := none, isDefault := some true,
        isActive := none } now

/-- `datesOverlap`: two ranges overlap iff
`start1 <= effectiveEnd2 && start2 <= effectiveEnd1`, an absent end standing
for `9999-12-31`. -/
def datesOverlap (start1 : Nat) (end1 : Option Nat) (start2 : Nat)
    (end2 : Option Nat) : Bool :=
  let effectiveEnd1 := end1.getD farFuture
  let effectiveEnd2 := end2.getD farFuture
  decide (start1 ≤ effectiveEnd2) && decide (start2 ≤ effectiveEnd1)

/-- `getActivePriceListsForDate(pricingGroupId, date)`: the active lists of
the group that are effective at `date` and not expired at `date`. -/
def getActivePriceListsForDate (st : PricingStore) (pricingGroupId : Nat)
    (date : Nat) : List PriceList :=
  let priceLists := st.priceLists.filter
    (fun pl => pl.pricingGroupId == pricingGroupId && pl.isActive)
  priceLists.filter (fun pl =>
    let isEffective := decide (pl.effectiveDate ≤ date)
    let isNotExpired :=
      match pl.expirationDate with
      | none => true
      | some e => decide (e > date)
    isEffective && isNotExpired)

/-- Result record of `validateCommodityUniqueness`. -/
structure ValidationResult where
  valid : Bool
  conflictingPriceList : Option PriceList
deriving DecidableEq

/-- `validateCommodityUniqueness(priceListId, commodityId, excludeItemId?)`:
load the target list; scan the other lists of the same pricing group whose
date range overlaps the target, looking for an item of the same commodity
(skipping `excludeItemId`); then look for a duplicate inside the target list
itself. -/
def validateCommodityUniqueness (st : PricingStore) (priceListId : Nat)
    (commodityId : Nat) (excludeItemId : Option Nat) : ValidationResult :=
  match st.priceLists.find? (fun pl => pl.id == priceListId) with
  | none => { valid := false, conflictingPriceList := none }
  | some priceList =>
    let allListsInGroup := st.priceLists.filter
      (fun pl => pl.pricingGroupId == priceList.pricingGroupId)
    let conflict := allListsInGroup.find? (fun otherList =>
      otherList.id != priceListId &&
      datesOverlap priceList.effectiveDate priceList.expirationDate
        otherList.effectiveDate otherList.expirationDate &&
      (st.items.filter (fun item => item.priceListId == otherList.id)).any
        (fun item => item.commodityId == commodityId &&
          excludeItemId.all (fun e => item.id != e)))
    match conflict with
    | some otherList => { valid := false, conflictingPriceList := some otherList }
    | none =>
      let currentItems := st.items.filter (fun item =>
        item.priceListId == priceListId && item.commodityId == commodityId)
      match currentItems.find? (fun item =>
          excludeItemId.all (fun e => item.id != e)) with
      | some _ => { valid := false, conflictingPriceList := some priceList }
      | none => { valid := true, conflictingPriceList := none }

/-- Data supplied to `createPriceListItem` (id and audit fields omitted). -/
structure PriceListItemData where
  priceListId : Nat
  commodityId : Nat
  price : Int
  unit : String
  currency : String
deriving DecidableEq

/-- Modelled from the spec: the `createNewPriceListItem` constructor of
`schema.ts` (not under the provided sources) copies the supplied data and
attaches a freshly generated id. -/
def newPriceListItemOf (data : PriceListItemData) (id : Nat) :
    NewPriceListItem :=
  { id := id
    priceListId := data.priceListId
    commodityId := data.commodityId
    price := data.price
    unit := data.unit
    currency := data.currency }

/-- `createPriceListItem(data)`: validate commodity uniqueness, throw on a
conflict (leaving the store untouched), otherwise persist and return the new
item.  The returned pair is the thrown-or-returned value together with the
resulting store state. -/
def createPriceListItem (st : PricingStore) (data : PriceListItemData) :
    Except String NewPriceListItem × PricingStore :=
  let validation :=
    validateCommodityUniqueness st data.priceListId data.commodityId none
  if validation.valid = false then
    (Except.error "Commodity already has a price for overlapping dates", st)
  else
    let newItem := newPriceListItemOf data st.nextId
    (Except.ok newItem,
      { st with items := st.items ++ [newItem], nextId := st.nextId + 1 })

/-- Display record assembled by `findPriceInGroup` when a list holds the
commodity. -/
def resolvedPrice (commodity : Commodity) (group : PricingGroup)
    (priceList : PriceList) (item : NewPriceListItem) : CommodityPrice :=
  { commodityId := commodity.id
    commodityName := commodity.name
    commodityCode := commodity.code
    price := item.price
    unit := item.unit
    currency := item.currency
    priceListId := priceList.id
    priceListName := priceList.name
    pricingGroupId := group.id
    pricingGroupName := group.name
    effectiveDate := priceList.effectiveDate
    expirationDate := priceList.expirationDate }

/-- Loop body of `findPriceInGroup`: walk the sorted candidate lists and
return the first one holding an item for the commodity, assembled into a
`CommodityPrice`. -/
def resolveLoop (st : PricingStore) (commodity : Commodity)
    (group : PricingGroup) : List PriceList → Option CommodityPrice
  | [] => none
  | priceList :: rest =>
    let items := st.items.filter (fun item => item.priceListId == priceList.id)
    match items.find? (fun i => i.commodityId == commodity.id) with
    | some item => some (resolvedPrice commodity group priceList item)
    | none => resolveLoop st commodity group rest

/-- `findPriceInGroup(groupId, commodity, date)`: the active lists of the
group effective at `date`, sorted by `effectiveDate` descending, first list
holding the commodity wins.  The source sorts with the stable
`Array.prototype.sort`; a stable sort under a total preorder is unique, so
it is embedded as an insertion sort. -/
def findPriceInGroup (st : PricingStore) (groupId : Nat) (commodity : Commodity)
    (date : Nat) : Option CommodityPrice :=
  match st.groups.find? (fun g => g.id == groupId) with
  | none => none
  | some group =>
    let priceLists := getActivePriceListsForDate st groupId date
    let sorted := priceLists.insertionSort
      (fun a b => b.effectiveDate ≤ a.effectiveDate)
    resolveLoop st commodity group sorted

/-- `getPrice(accountId, commodityId, direction, date)`: resolve through the
account's assigned group of the direction, falling back to the direction's
default group. -/
def getPrice (st : PricingStore) (accountId : Nat) (commodityId : Nat)
    (direction : Direction) (date : Nat) : Option CommodityPrice :=
  match st.accounts.find? (fun a => a.id == accountId) with
  | none => none
  | some account =>
    match st.commodities.find? (fun c => c.id == commodityId) with
    | none => none
    | some commodity =>
      let assignedGroupId :=
        match direction with
        | .buy => account.buyPricingGroupId
        | .sell => account.sellPricingGroupId
      let fromAssigned :=
        match assignedGroupId with
        | some gid => findPriceInGroup st gid commodity date
        | none => none
      match fromAssigned with
      | some price => some price
      | none =>
        match getDefaultPricingGroup st direction with
        | some defaultGroup => findPriceInGroup st defaultGroup.id commodity date
        | none => none

/-- Line item of a purchase or sales order, restricted to the fields the
inventory engine reads. -/
structure OrderLineItem where
  id : Nat
  commodityId : Nat
  commodityName : String
  quantity : Int
  receivedQuantity : Option Int
  shippedQuantity : Option Int
  unit : String
deriving DecidableEq

/-- PurchaseOrder, restricted to the fields the inventory engine reads.
`startDate`/`endDate` are `Option` so that the falsy-empty fallback chain of
`getExpectedDate` is expressible. -/
structure PurchaseOrder where
  id : Nat
  orderNumber : String
  status : String
  facilityId : Option Nat
  lineItems : List OrderLineItem
  startDate : Option Nat
  endDate : Option Nat
  supplierName : String
deriving DecidableEq

/-- SalesOrder, restricted to the fields the inventory engine reads. -/
structure SalesOrder where
  id : Nat
  orderNumber : String
  status : String
  facilityId : Option Nat
  lineItems : List OrderLineItem
  startDate : Option Nat
  endDate : Option Nat
  customerName : String
deriving DecidableEq

/-- Load, restricted to the fields the inventory engine reads. -/
structure Load where
  id : Nat
  purchaseOrderId : Option Nat
  salesOrderId : Option Nat
  scheduledPickupDate : Option Nat
  actualPickupDate : Option Nat
  scheduledDeliveryDate : Option Nat
  actualDeliveryDate : Option Nat
deriving DecidableEq

/-- InventoryAdjustment record.  `adjustmentNumber` carries the numeric
suffix of the `ADJ-0001` style number. -/
structure InventoryAdjustment where
  id : Nat
  adjustmentNumber : Nat
  commodityId : Nat
  commodityCode : Option String
  commodityName : Option String
  locationId : Option Nat
  adjustmentType : String
  quantity : Int
  unit : String
  reason : Option String
  adjustmentDate : Nat
  createdBy : String
  createdAt : Nat
  updatedAt : Nat
deriving DecidableEq

/-- Synthesized pending movement (`InventoryMovement`, derived, not
persisted). -/
structure InventoryMovement where
  id : String
  type : String
  commodityId : Nat
  commodityName : String
  locationId : Option Nat
  quantity : Int
  unit : String
  expectedDate : Nat
  sourceId : Nat
  sourceType : String
  sourceNumber : String
  partyName : String
  status : String
deriving DecidableEq

/-- Derived position DTO. -/
structure Position where
  id : String
  commodityId : Nat
  commodityCode : String
  commodityName : String
  locationId : Option Nat
  currentInventory : Int
  incoming : Int
  outgoing : Int
  netPosition : Int
  unit : String
deriving DecidableEq

/-- One day of the position timeline. -/
structure PositionTimelineEntry where
  date : Nat
  position : Int
  incoming : Int
  outgoing : Int
  movements : List InventoryMovement
deriving DecidableEq

/-- Result of `checkAvailability`. -/
structure AvailabilityCheck where
  available : Bool
  currentInventory : Int
  incoming : Int
  outgoing : Int
  currentPosition : Int
  projectedPosition : Int
  shortfall : Int
deriving DecidableEq

/-- State read and written by the inventory service. -/
structure InventoryStore where
  adjustments : List InventoryAdjustment
  purchaseOrders : List PurchaseOrder
  salesOrders : List SalesOrder
  loads : List Load
  commodities : List Commodity
  nextId : Nat
deriving DecidableEq

inductive MovementType where
  | pickup
  | delivery
deriving DecidableEq

/-- `getExpectedDate(load, order, movementType)`: actual load date of the
movement type, else scheduled load date, else `order.endDate`, else
`order.startDate`, else today. -/
def getExpectedDate (load : Option Load) (orderEndDate orderStartDate : Option Nat)
    (movementType : MovementType) (today : Nat) : Nat :=
  match load with
  | some l =>
    match movementType with
    | .pickup =>
      match l.actualPickupDate with
      | some d => d
      | none =>
        match l.scheduledPickupDate with
        | some d => d
        | none => orderEndDate.getD (orderStartDate.getD today)
    | .delivery =>
      match l.actualDeliveryDate with
      | some d => d
      | none =>
        match l.scheduledDeliveryDate with
        | some d => d
        | none => orderEndDate.getD (orderStartDate.getD today)
  | none => orderEndDate.getD (orderStartDate.getD today)

/-- `getCurrentInventory(commodityId, locationId?)`: sum of the quantities of
the matching adjustments; an absent location means no location filtering. -/
def getCurrentInventory (st : InventoryStore) (commodityId : Nat)
    (locationId : Option Nat) : Int :=
  let adjustments := st.adjustments.filter (fun adj =>
    adj.commodityId == commodityId &&
    (match locationId with
     | none => true
     | some l => adj.locationId == some l))
  (adjustments.map (fun adj => adj.quantity)).sum

/-- Totals-and-movements pair returned by the two calculators. -/
structure MovementsResult where
  total : Int
  movements : List InventoryMovement
deriving DecidableEq

/-- `calculateIncoming(commodityId, locationId?, byDate?)`: pending line-item
quantities of open purchase orders, synthesized into movements; the total is
the sum of the emitted pending quantities. -/
def calculateIncoming (st : InventoryStore) (commodityId : Nat)
    (locationId : Option Nat) (byDate : Option Nat) (today : Nat) :
    MovementsResult :=
  let pos := st.purchaseOrders.filter
    (fun po => po.status != "voided" && po.status != "closed")
  let movements := pos.flatMap (fun po =>
    if (match locationId with
        | some l => po.facilityId != some l
        | none => false) then []
    else po.lineItems.filterMap (fun item =>
      if item.commodityId != commodityId then none
      else
        let ordered := item.quantity
        let received := item.receivedQuantity.getD 0
        let pending := ordered - received
        if pending ≤ 0 then none
        else
          let linkedLoads := st.loads.filter
            (fun l => l.purchaseOrderId == some po.id)
          let linkedLoad := linkedLoads.head?
          let expectedDate :=
            getExpectedDate linkedLoad po.endDate po.startDate .delivery today
          if (match byDate with
              | some b => decide (expectedDate > b)
              | none => false) then none
          else some
            { id := "po-" ++ toString po.id ++ "-" ++ toString item.id
              type := "po_incoming"
              commodityId := item.commodityId
              commodityName := item.commodityName
              locationId := po.facilityId
              quantity := pending
              unit := item.unit
              expectedDate := expectedDate
              sourceId := po.id
              sourceType := "purchaseOrder"
              sourceNumber := po.orderNumber
              partyName := po.supplierName
              status := "pending" }))
  { total := (movements.map (fun m => m.quantity)).sum
    movements := movements }

/-- `calculateOutgoing(commodityId, locationId?, byDate?)`: pending line-item
quantities of open sales orders; each movement carries the negated pending
quantity while the total accumulates the positive magnitude. -/
def calculateOutgoing (st : InventoryStore) (commodityId : Nat)
    (locationId : Option Nat) (byDate : Option Nat) (today : Nat) :
    MovementsResult :=
  let sos := st.salesOrders.filter
    (fun so => so.status != "voided" && so.status != "closed")
  let movements := sos.flatMap (fun so =>
    if (match locationId with
        | some l => so.facilityId != some l
        | none => false) then []
    else so.lineItems.filterMap (fun item =>
      if item.commodityId != commodityId then none
      else
        let ordered := item.quantity
        let shipped := item.shippedQuantity.getD 0
        let pending := ordered - shipped
        if pending ≤ 0 then none
        else
          let linkedLoads := st.loads.filter
            (fun l => l.salesOrderId == some so.id)
          let linkedLoad := linkedLoads.head?
          let expectedDate :=
            getExpectedDate linkedLoad so.endDate so.startDate .pickup today
          if (match byDate with
              | some b => decide (expectedDate > b)
              | none => false) then none
          else some
            { id := "so-" ++ toString so.id ++ "-" ++ toString item.id
              type := "so_outgoing"
              commodityId := item.commodityId
              commodityName := item.commodityName
              locationId := so.facilityId
              quantity := -pending
              unit := item.unit
              expectedDate := expectedDate
              sourceId := so.id
              sourceType := "salesOrder"
              sourceNumber := so.orderNumber
              partyName := so.customerName
              status := "pending" }))
  { total := (movements.map (fun m => -m.quantity)).sum
    movements := movements }

/-- `getPosition(commodityId, locationId?)`: the derived position of one
commodity, `null` when the commodity does not exist. -/
def getPosition (st : InventoryStore) (commodityId : Nat)
    (locationId : Option Nat) (today : Nat) : Option Position :=
  match st.commodities.find? (fun c => c.id == commodityId) with
  | none => none
  | some commodity =>
    let currentInventory := getCurrentInventory st commodityId locationId
    let incoming := (calculateIncoming st commodityId locationId none today).total
    let outgoing := (calculateOutgoing st commodityId locationId none today).total
    let netPosition := currentInventory + incoming - outgoing
    some
      { id := toString commodityId ++ "-" ++
          (match locationId with | some l => toString l | none => "all")
        commodityId := commodityId
        commodityCode := commodity.code
        commodityName := commodity.name
        locationId := locationId
        currentInventory := currentInventory
        incoming := incoming
        outgoing := outgoing
        netPosition := netPosition
        unit := commodity.defaultUnit.getD "LB" }

/-- `getMovements(commodityId, locationId?, startDate?, endDate?)`: incoming
and outgoing movements, filtered to the date range, sorted by expected
date. -/
def getMovements (st : InventoryStore) (commodityId : Nat)
    (locationId : Option Nat) (startDate endDate : Option Nat) (today : Nat) :
    List InventoryMovement :=
  let incomingMovements :=
    (calculateIncoming st commodityId locationId none today).movements
  let outgoingMovements :=
    (calculateOutgoing st commodityId locationId none today).movements
  let allMovements := incomingMovements ++ outgoingMovements
  let afterStart : List InventoryMovement :=
    match startDate with
    | some s => allMovements.filter (fun m => decide (m.expectedDate ≥ s))
    | none => allMovements
  let afterEnd : List InventoryMovement :=
    match endDate with
    | some e => afterStart.filter (fun m => decide (m.expectedDate ≤ e))
    | none => afterStart
  afterEnd.insertionSort (fun a b => a.expectedDate ≤ b.expectedDate)

/-- The calendar days walked by `getPositionTimeline`, from `startDate` to
`endDate` inclusive. -/
def timelineDays (startDate endDate : Nat) : List Nat :=
  (List.range (endDate + 1 - startDate)).map (fun k => startDate + k)

/-- The day loop of `getPositionTimeline`: per day, the positive and the
negative movement quantities, folded into a running position. -/
def timelineFrom (movementsByDate : Nat → List InventoryMovement) :
    List Nat → Int → List PositionTimelineEntry
  | [], _ => []
  | d :: rest, runningPosition =>
    let dayMovements : List InventoryMovement := movementsByDate d
    let dayIncoming :=
      ((dayMovements.filter (fun m => decide (m.quantity > 0))).map
        (fun m => m.quantity)).sum
    let dayOutgoing :=
      ((dayMovements.filter (fun m => decide (m.quantity < 0))).map
        (fun m => |m.quantity|)).sum
    let nextPosition := runningPosition + dayIncoming - dayOutgoing
    { date := d
      position := nextPosition
      incoming := dayIncoming
      outgoing := dayOutgoing
      movements := dayMovements } ::
      timelineFrom movementsByDate rest nextPosition

/-- `getPositionTimeline(commodityId, locationId, startDate, endDate)`:
current inventory as the baseline, movements of the window grouped by
expected date, one entry per calendar day. -/
def getPositionTimeline (st : InventoryStore) (commodityId : Nat)
    (locationId : Option Nat) (startDate endDate : Nat) (today : Nat) :
    List PositionTimelineEntry :=
  let currentInventory := getCurrentInventory st commodityId locationId
  let movements :=
    getMovements st commodityId locationId (some startDate) (some endDate) today
  timelineFrom (fun d => movements.filter (fun m => m.expectedDate == d))
    (timelineDays startDate endDate) currentInventory

/-- `checkAvailability(commodityId, requiredQuantity, locationId?, byDate?)`:
the current position bounded by `byDate`, the projection after the demand,
and the shortfall. -/
def checkAvailability (st : InventoryStore) (commodityId : Nat)
    (requiredQuantity : Int) (locationId : Option Nat) (byDate : Option Nat)
    (today : Nat) : AvailabilityCheck :=
  let currentInventory := getCurrentInventory st commodityId locationId
  let incoming := (calculateIncoming st commodityId locationId byDate today).total
  let outgoing := (calculateOutgoing st commodityId locationId byDate today).total
  let currentPosition := currentInventory + incoming - outgoing
  let projectedPosition := currentPosition - requiredQuantity
  let shortfall := if projectedPosition < 0 then |projectedPosition| else 0
  { available := decide (projectedPosition ≥ 0)
    currentInventory := currentInventory
    incoming := incoming
    outgoing := outgoing
    currentPosition := currentPosition
    projectedPosition := projectedPosition
    shortfall := shortfall }

/-- `generateAdjustmentNumber`: one more than the highest existing `ADJ-`
suffix (the model carries the numeric suffix directly). -/
def generateAdjustmentNumber (st : InventoryStore) : Nat :=
  let maxNum := st.adjustments.foldl
    (fun mx adj => if adj.adjustmentNumber > mx then adj.adjustmentNumber else mx) 0
  maxNum + 1

/-- Data supplied to `createAdjustment` (id, number, audit fields omitted). -/
structure AdjustmentData where
  commodityId : Nat
  commodityCode : Option String
  commodityName : Option String
  locationId : Option Nat
  adjustmentType : String
  quantity : Int
  unit : String
  reason : Option String
  adjustmentDate : Nat
deriving DecidableEq

/-- `createAdjustment(data)`: persist the data under a fresh id and the next
adjustment number. -/
def createAdjustment (st : InventoryStore) (data : AdjustmentData) (now : Nat) :
    InventoryAdjustment × InventoryStore :=
  let adjustment : InventoryAdjustment :=
    { id := st.nextId
      adjustmentNumber := generateAdjustmentNumber st
      commodityId := data.commodityId
      commodityCode := data.commodityCode
      commodityName := data.commodityName
      locationId := data.locationId
      adjustmentType := data.adjustmentType
      quantity := data.quantity
      unit := data.unit
      reason := data.reason
      adjustmentDate := data.adjustmentDate
      createdBy := "Current User"
      createdAt := now
      updatedAt := now }
  (adjustment,
    { st with adjustments := st.adjustments ++ [adjustment],
              nextId := st.nextId + 1 })

/-- Partial update payload of `updateAdjustment`
(`Partial<InventoryAdjustment>`); the outer `Option` is key presence. -/
structure AdjustmentPatch where
  id : Option Nat
  adjustmentNumber : Option Nat
  commodityId : Option Nat
  commodityCode : Option (Option String)
  commodityName : Option (Option String)
  locationId : Option (Option Nat)
  adjustmentType : Option String
  quantity : Option Int
  unit : Option String
  reason : Option (Option String)
  adjustmentDate : Option Nat
  createdBy : Option String
  createdAt : Option Nat
deriving DecidableEq

/-- The field merge `{...existing, ...updates, id,
adjustmentNumber: existing.adjustmentNumber, updatedAt}` of
`updateAdjustment`. -/
def mergeAdjustment (existing : InventoryAdjustment) (updates : AdjustmentPatch)
    (id : Nat) (now : Nat) : InventoryAdjustment :=
  { id := id
    adjustmentNumber := existing.adjustmentNumber
    commodityId := updates.commodityId.getD existing.commodityId
    commodityCode := updates.commodityCode.getD existing.commodityCode
    commodityName := updates.commodityName.getD existing.commodityName
    locationId := updates.locationId.getD existing.locationId
    adjustmentType := updates.adjustmentType.getD existing.adjustmentType
    quantity := updates.quantity.getD existing.quantity
    unit := updates.unit.getD existing.unit
    reason := updates.reason.getD existing.reason
    adjustmentDate := updates.adjustmentDate.getD existing.adjustmentDate
    createdBy := updates.createdBy.getD existing.createdBy
    createdAt := updates.createdAt.getD existing.createdAt
    updatedAt := now }

/-- `updateAdjustment(id, updates)`: read the existing record, merge, store
under the same id; `id` and `adjustmentNumber` are pinned. -/
def updateAdjustment (st : InventoryStore) (id : Nat) (updates : AdjustmentPatch)
    (now : Nat) : Option InventoryAdjustment × InventoryStore :=
  match st.adjustments.find? (fun adj => adj.id == id) with
  | none => (none, st)
  | some existing =>
    let updated := mergeAdjustment existing updates id now
    (some updated,
      { st with adjustments :=
          st.adjustments.map (fun x => if x.id == id then updated else x) })

/-- `setInventoryCount(commodityId, newCount, locationId?, reason?)`: record
a `count` adjustment whose delta moves the current inventory to
`newCount`. -/
def setInventoryCount (st : InventoryStore) (commodityId : Nat) (newCount : Int)
    (locationId : Option Nat) (reason : Option String) (now : Nat)
    (today : Nat) : InventoryAdjustment × InventoryStore :=
  let commodity := st.commodities.find? (fun c => c.id == commodityId)
  let currentInventory := getCurrentInventory st commodityId locationId
  let adjustmentAmount := newCount - currentInventory
  createAdjustment st
    { commodityId := commodityId
      commodityCode := commodity.map (fun c => c.code)
      commodityName := commodity.map (fun c => c.name)
      locationId := locationId
      adjustmentType := "count"
      quantity := adjustmentAmount
      unit := (commodity.bind (fun c => c.defaultUnit)).getD "LB"
      reason := some (reason.getD
        ("Inventory count adjustment to " ++ toString newCount))
      adjustmentDate := today } now

/-! Claim C1: position identity and availability check. -/

/-- Arithmetic shape of the shortfall computation. -/
theorem shortfall_eq_max (x : Int) : (if x < 0 then |x| else 0) = max 0 (-x) := by
  rcases lt_or_le x 0 with h | h
  · rw [if_pos h, abs_of_neg h]
    exact (max_eq_right (by omega)).symm
  · rw [if_neg (not_lt.mpr h)]
    exact (max_eq_left (by omega)).symm

/-- C1: for every commodity, location filter and byDate, the position
returned by `getPosition` satisfies
`netPosition = currentInventory + incoming - outgoing` exactly, and
`checkAvailability` returns
`currentPosition = currentInventory + incoming - outgoing` (both bounded by
`byDate`), `projectedPosition = currentPosition - requiredQuantity`,
`available = true` iff `requiredQuantity <= currentPosition`, and
`shortfall = max 0 (-projectedPosition)`. -/
theorem position_identity_and_availability (st : InventoryStore)
    (commodityId : Nat) (locationId : Option Nat) (requiredQuantity : Int)
    (byDate : Option Nat) (today : Nat) :
    (∀ p, getPosition st commodityId locationId today = some p →
      p.netPosition = p.currentInventory + p.incoming - p.outgoing ∧
      p.currentInventory = getCurrentInventory st commodityId locationId ∧
      p.incoming = (calculateIncoming st commodityId locationId none today).total ∧
      p.outgoing = (calculateOutgoing st commodityId locationId none today).total) ∧
    ((checkAvailability st commodityId requiredQuantity locationId byDate today).currentPosition =
        getCurrentInventory st commodityId locationId +
        (calculateIncoming st commodityId locationId byDate today).total -
        (calculateOutgoing st commodityId locationId byDate today).total) ∧
    ((checkAvailability st commodityId requiredQuantity locationId byDate today).projectedPosition =
        (checkAvailability st commodityId requiredQuantity locationId byDate today).currentPosition -
        requiredQuantity) ∧
    ((checkAvailability st commodityId requiredQuantity locationId byDate today).available = true ↔
        requiredQuantity ≤
        (checkAvailability st commodityId requiredQuantity locationId byDate today).currentPosition) ∧
    ((checkAvailability st commodityId requiredQuantity locationId byDate today).shortfall =
        max 0 (-(checkAvailability st commodityId requiredQuantity locationId byDate today).projectedPosition)) := by
  refine ⟨?_, rfl, rfl, ?_, ?_⟩
  · intro p hp
    unfold getPosition at hp
    rcases h : st.commodities.find? (fun c => c.id == commodityId) with _ | commodity
    · rw [h] at hp
      simp at hp
    · rw [h] at hp
      simp only [Option.some.injEq] at hp
      subst hp
      exact ⟨rfl, rfl, rfl, rfl⟩
  · show decide _ = true ↔ _
    rw [decide_eq_true_iff]
    have hcp : (checkAvailability st commodityId requiredQuantity locationId byDate today).currentPosition =
        getCurrentInventory st commodityId locationId +
        (calculateIncoming st commodityId locationId byDate today).total -
        (calculateOutgoing st commodityId locationId byDate today).total := rfl
    rw [hcp]
    omega
  · exact shortfall_eq_max _

/-- Concrete store for the C1 witness: one commodity with a single
1000-unit adjustment. -/
def w1St : InventoryStore :=
  { adjustments := [
      { id := 10, adjustmentNumber := 1, commodityId := 1,
        commodityCode := none, commodityName := none, locationId := none,
        adjustmentType := "count", quantity := 1000, unit := "LB",
        reason := none, adjustmentDate := 0, createdBy := "Current User",
        createdAt := 0, updatedAt := 0 }],
    purchaseOrders := [], salesOrders := [], loads := [],
    commodities := [
      { id := 1, code := "HMS1", name := "HMS 1",
        defaultUnit := some "LB", isActive := true }],
    nextId := 20 }

/-- Position value that `getPosition` computes on the C1 witness store. -/
def w1Pos : Position :=
  { id := "1-all", commodityId := 1, commodityCode := "HMS1",
    commodityName := "HMS 1", locationId := none, currentInventory := 1000,
    incoming := 0, outgoing := 0, netPosition := 1000, unit := "LB" }

/-- Witness for C1 at a concrete store. -/
theorem position_identity_and_availability_witness :
    getPosition w1St 1 none 0 = some w1Pos ∧
    w1Pos.netPosition = w1Pos.currentInventory + w1Pos.incoming - w1Pos.outgoing ∧
    ((checkAvailability w1St 1 1400 none none 0).available = true ↔
      (1400 : Int) ≤ (checkAvailability w1St 1 1400 none none 0).currentPosition) :=
  ⟨by decide,
    ((position_identity_and_availability w1St 1 none 1400 none 0).1 w1Pos (by decide)).1,
    (position_identity_and_availability w1St 1 none 1400 none 0).2.2.2.1⟩

/-! Claim C7: setInventoryCount is a ledger delta that restores the count. -/

/-- C7: for every commodity, location filter and number `N`,
`setInventoryCount` records a single count-type adjustment whose signed
quantity is `N` minus the current inventory of the pair, and an immediately
following `getCurrentInventory` on the new store returns exactly `N`. -/
theorem set_inventory_count_ledger (st : InventoryStore) (commodityId : Nat)
    (newCount : Int) (locationId : Option Nat) (reason : Option String)
    (now : Nat) (today : Nat) :
    (setInventoryCount st commodityId newCount locationId reason now today).1.adjustmentType = "count" ∧
    (setInventoryCount st commodityId newCount locationId reason now today).1.quantity =
      newCount - getCurrentInventory st commodityId locationId ∧
    (setInventoryCount st commodityId newCount locationId reason now today).2.adjustments =
      st.adjustments ++ [(setInventoryCount st commodityId newCount locationId reason now today).1] ∧
    getCurrentInventory
      (setInventoryCount st commodityId newCount locationId reason now today).2
      commodityId locationId = newCount := by
  refine ⟨rfl, rfl, rfl, ?_⟩
  cases locationId with
  | none =>
    simp only [setInventoryCount, createAdjustment, getCurrentInventory,
      List.filter_append, List.map_append, List.sum_append, List.filter_cons,
      List.filter_nil, beq_self_eq_true, Bool.and_self, if_true, List.map_cons,
      List.map_nil, List.sum_cons, List.sum_nil]
    omega
  | some l =>
    simp only [setInventoryCount, createAdjustment, getCurrentInventory,
      List.filter_append, List.map_append, List.sum_append, List.filter_cons,
      List.filter_nil, beq_self_eq_true, Bool.and_self, if_true, List.map_cons,
      List.map_nil, List.sum_cons, List.sum_nil]
    omega

/-! Claim C8: expected-date resolution priority. -/

/-- Actual load date of a movement type (claim-side selector). -/
def loadActualDate (l : Load) : MovementType → Option Nat
  | .pickup => l.actualPickupDate
  | .delivery => l.actualDeliveryDate

/-- Scheduled load date of a movement type (claim-side selector). -/
def loadScheduledDate (l : Load) : MovementType → Option Nat
  | .pickup => l.scheduledPickupDate
  | .delivery => l.scheduledDeliveryDate

/-- C8: for every order date pair, candidate linked load and movement type,
the expected date is resolved in strict priority order: the load's actual
date for the movement type, else its scheduled date, else the order's end
date, else its start date, else today — each source used only when every
higher-priority source is absent. -/
theorem expected_date_priority (load : Option Load)
    (orderEnd orderStart : Option Nat) (mt : MovementType) (today : Nat) :
    (∀ l d, load = some l → loadActualDate l mt = some d →
      getExpectedDate load orderEnd orderStart mt today = d) ∧
    (∀ l d, load = some l → loadActualDate l mt = none →
      loadScheduledDate l mt = some d →
      getExpectedDate load orderEnd orderStart mt today = d) ∧
    ((load = none ∨
        ∃ l, load = some l ∧ loadActualDate l mt = none ∧
          loadScheduledDate l mt = none) →
      ((∀ d, orderEnd = some d →
          getExpectedDate load orderEnd orderStart mt today = d) ∧
       (orderEnd = none → ∀ d, orderStart = some d →
          getExpectedDate load orderEnd orderStart mt today = d) ∧
       (orderEnd = none → orderStart = none →
          getExpectedDate load orderEnd orderStart mt today = today))) := by
  refine ⟨?_, ?_, ?_⟩
  · rintro l d rfl hd
    cases mt <;> simp only [loadActualDate] at hd <;>
      simp [getExpectedDate, hd]
  · rintro l d rfl ha hs
    cases mt <;> simp only [loadActualDate] at ha <;>
      simp only [loadScheduledDate] at hs <;>
      simp [getExpectedDate, ha, hs]
  · rintro (rfl | ⟨l, rfl, ha, hs⟩)
    · refine ⟨?_, ?_, ?_⟩
      · rintro d rfl
        simp [getExpectedDate]
      · rintro rfl d rfl
        simp [getExpectedDate]
      · rintro rfl rfl
        simp [getExpectedDate]
    · cases mt <;> simp only [loadActualDate] at ha <;>
        simp only [loadScheduledDate] at hs <;>
        exact ⟨fun d hd => by subst hd; simp [getExpectedDate, ha, hs],
               fun he d hd => by subst he; subst hd; simp [getExpectedDate, ha, hs],
               fun he hst => by subst he; subst hst; simp [getExpectedDate, ha, hs]⟩

/-- Concrete load for the C8 witness: an actual pickup date present. -/
def w8Load : Load :=
  { id := 1, purchaseOrderId := none, salesOrderId := none,
    scheduledPickupDate := some 5, actualPickupDate := some 7,
    scheduledDeliveryDate := none, actualDeliveryDate := none }

/-- Witness for C8: the actual pickup date wins over every fallback. -/
theorem expected_date_priority_witness :
    getExpectedDate (some w8Load) (some 9) (some 3) MovementType.pickup 11 = 7 :=
  (expected_date_priority (some w8Load) (some 9) (some 3)
    MovementType.pickup 11).1 w8Load 7 rfl rfl

/-! Claim C9: getDefaultPricingGroup.  The source does not filter on
`isActive`, so the claim is settled against the amended reading: the result
is a default group of the direction regardless of activity. -/

/-- Counterexample to C9 as stated: a store whose only group is an inactive
default buy group. -/
def c9Group : PricingGroup :=
  { id := 1, name := "Inactive Default", direction := Direction.buy,
    isDefault := true, isActive := false, updatedAt := 0 }

/-- Store holding only the inactive default buy group. -/
def c9St : PricingStore :=
  { groups := [c9Group], priceLists := [], items := [], accounts := [],
    commodities := [], nextId := 2 }

/-- C9 counterexample: `getDefaultPricingGroup` returns a group that is not
active, so the claimed `isActive` guarantee is false, and it does not return
`undefined` although no active default exists. -/
theorem default_group_counterexample :
    getDefaultPricingGroup c9St Direction.buy = some c9Group ∧
    c9Group.isActive = false := by
  exact ⟨rfl, rfl⟩

/-- C9 amended: `getDefaultPricingGroup(d)` returns a group only if that
group is stored, has `direction = d` and `isDefault = true` (`isActive` is
not consulted); it returns undefined exactly when no default group for `d`
(active or not) exists. -/
theorem default_group_resolution (st : PricingStore) (d : Direction) :
    (∀ g, getDefaultPricingGroup st d = some g →
      g ∈ st.groups ∧ g.direction = d ∧ g.isDefault = true) ∧
    (getDefaultPricingGroup st d = none ↔
      ∀ g ∈ st.groups, ¬(g.direction = d ∧ g.isDefault = true)) := by
  constructor
  · intro g hg
    have hmem : g ∈ st.groups.filter (fun g => g.direction == d && g.isDefault) :=
      List.mem_of_mem_head? (by simp [getDefaultPricingGroup] at hg; simp [hg])
    rcases List.mem_filter.mp hmem with ⟨hmem2, hp⟩
    simp only [Bool.and_eq_true, beq_iff_eq] at hp
    exact ⟨hmem2, hp.1, hp.2⟩
  · rw [show getDefaultPricingGroup st d =
        (st.groups.filter (fun g => g.direction == d && g.isDefault)).head? from rfl,
      List.head?_eq_none_iff, List.filter_eq_nil_iff]
    constructor
    · intro h g hg hgd
      exact h g hg (by simp only [Bool.and_eq_true, beq_iff_eq]; exact ⟨hgd.1, hgd.2⟩)
    · intro h g hg hp
      simp only [Bool.and_eq_true, beq_iff_eq] at hp
      exact h g hg ⟨hp.1, hp.2⟩

/-- Witness for the amended C9 at the concrete store. -/
theorem default_group_resolution_witness :
    getDefaultPricingGroup c9St Direction.buy = some c9Group ∧
    c9Group ∈ c9St.groups ∧ c9Group.direction = Direction.buy ∧
    c9Group.isDefault = true :=
  ⟨by decide, (default_group_resolution c9St Direction.buy).1 c9Group (by decide)⟩

/-! Claim C10: updateAdjustment frame property. -/

/-- C10: for every stored adjustment and every update payload — even one
carrying different `id` or `adjustmentNumber` values — the updated record
keeps the stored `id` and `adjustmentNumber`, replaces the supplied fields,
refreshes `updatedAt`, and is what is stored back under the same key. -/
theorem update_adjustment_frame (st : InventoryStore) (id : Nat)
    (updates : AdjustmentPatch) (now : Nat) (existing : InventoryAdjustment)
    (h : st.adjustments.find? (fun adj => adj.id == id) = some existing) :
    ∃ u, (updateAdjustment st id updates now).1 = some u ∧
      u.id = existing.id ∧
      u.adjustmentNumber = existing.adjustmentNumber ∧
      u.commodityId = updates.commodityId.getD existing.commodityId ∧
      u.locationId = updates.locationId.getD existing.locationId ∧
      u.adjustmentType = updates.adjustmentType.getD existing.adjustmentType ∧
      u.quantity = updates.quantity.getD existing.quantity ∧
      u.unit = updates.unit.getD existing.unit ∧
      u.reason = updates.reason.getD existing.reason ∧
      u.adjustmentDate = updates.adjustmentDate.getD existing.adjustmentDate ∧
      u.updatedAt = now ∧
      (updateAdjustment st id updates now).2.adjustments =
        st.adjustments.map (fun x => if x.id == id then u else x) := by
  have hid : existing.id = id := by
    have hp := List.find?_some h
    simpa using hp
  refine ⟨mergeAdjustment existing updates id now, ?_, hid.symm, rfl, rfl, rfl,
    rfl, rfl, rfl, rfl, rfl, rfl, ?_⟩
  · simp only [updateAdjustment, h]
  · simp only [updateAdjustment, h]

/-- Concrete adjustment for the C10 witness. -/
def w10Adj : InventoryAdjustment :=
  { id := 3, adjustmentNumber := 7, commodityId := 1, commodityCode := none,
    commodityName := none, locationId := none, adjustmentType := "count",
    quantity := 5, unit := "LB", reason := none, adjustmentDate := 0,
    createdBy := "Current User", createdAt := 0, updatedAt := 0 }

/-- Store holding the C10 witness adjustment. -/
def w10St : InventoryStore :=
  { adjustments := [w10Adj], purchaseOrders := [], salesOrders := [],
    loads := [], commodities := [], nextId := 4 }

/-- Update payload for the C10 witness, trying to overwrite `id` and
`adjustmentNumber`. -/
def w10Patch : AdjustmentPatch :=
  { id := some 99, adjustmentNumber := some 42, commodityId := none,
    commodityCode := none, commodityName := none, locationId := none,
    adjustmentType := none, quantity := some 8, unit := none, reason := none,
    adjustmentDate := none, createdBy := none, createdAt := none }

/-- Witness for C10: the hostile payload does not move `id` or
`adjustmentNumber`. -/
theorem update_adjustment_frame_witness :
    (updateAdjustment w10St 3 w10Patch 9).1 =
      some (mergeAdjustment w10Adj w10Patch 3 9) ∧
    (mergeAdjustment w10Adj w10Patch 3 9).id = w10Adj.id ∧
    (mergeAdjustment w10Adj w10Patch 3 9).adjustmentNumber =
      w10Adj.adjustmentNumber := by
  obtain ⟨u, h1, h2, h3, _⟩ :=
    update_adjustment_frame w10St 3 w10Patch 9 w10Adj (by decide)
  have hu : u = mergeAdjustment w10Adj w10Patch 3 9 := by
    have hcalc : (updateAdjustment w10St 3 w10Patch 9).1 =
        some (mergeAdjustment w10Adj w10Patch 3 9) := by decide
    exact Option.some.inj (h1.symm.trans hcalc)
  subst hu
  exact ⟨h1, h2, h3⟩

/-! Claim C2: createPriceListItem overlap/duplicate rejection. -/

/-- Characterization of `validateCommodityUniqueness` (with no excluded
item): invalid exactly when an overlapping sibling price list of the group
holds the commodity, or the target list itself does. -/
theorem validate_valid_iff (st : PricingStore) (priceListId commodityId : Nat)
    (pl : PriceList)
    (hpl : st.priceLists.find? (fun l => l.id == priceListId) = some pl) :
    ((validateCommodityUniqueness st priceListId commodityId none).valid = false ↔
      (∃ other ∈ st.priceLists, other.pricingGroupId = pl.pricingGroupId ∧
        other.id ≠ priceListId ∧
        datesOverlap pl.effectiveDate pl.expirationDate
          other.effectiveDate other.expirationDate = true ∧
        ∃ item ∈ st.items, item.priceListId = other.id ∧
          item.commodityId = commodityId) ∨
      (∃ item ∈ st.items, item.priceListId = priceListId ∧
        item.commodityId = commodityId)) := by
  unfold validateCommodityUniqueness
  rw [hpl]
  simp only []
  split
  · next otherList heq =>
    refine iff_of_true rfl (Or.inl ?_)
    have hmem := List.mem_of_find?_eq_some heq
    have hp := List.find?_some heq
    simp only [Bool.and_eq_true, bne_iff_ne, ne_eq, List.any_eq_true,
      List.mem_filter, beq_iff_eq, Option.all] at hp
    rcases hp with ⟨⟨hne, hov⟩, item, ⟨himem, hipl⟩, hic, _⟩
    exact ⟨otherList, (List.mem_filter.mp hmem).1,
      by simpa using (List.mem_filter.mp hmem).2, hne, hov,
      item, himem, hipl, hic⟩
  · next heqnone =>
    split
    · next item heq2 =>
      refine iff_of_true rfl (Or.inr ?_)
      have hmem2 := List.mem_of_find?_eq_some heq2
      rcases List.mem_filter.mp hmem2 with ⟨himem, hp2⟩
      simp only [Bool.and_eq_true, beq_iff_eq] at hp2
      exact ⟨item, himem, hp2.1, hp2.2⟩
    · next heq2none =>
      refine iff_of_false (by simp) ?_
      rintro (⟨other, hmem, hgrp, hne, hov, item, himem, hipl, hic⟩ |
              ⟨item, himem, hipl, hic⟩)
      · rw [List.find?_eq_none] at heqnone
        apply heqnone other (List.mem_filter.mpr ⟨hmem, by simp [hgrp]⟩)
        simp only [Bool.and_eq_true, bne_iff_ne, ne_eq, List.any_eq_true,
          List.mem_filter, beq_iff_eq, Option.all]
        exact ⟨⟨hne, hov⟩, item, ⟨himem, hipl⟩, hic, trivial⟩
      · rw [List.find?_eq_none] at heq2none
        apply heq2none item
          (List.mem_filter.mpr ⟨himem, by simp [hipl, hic]⟩)
        simp [Option.all]

/-- C2: for an existing target price list, `createPriceListItem` throws
(leaving the store untouched) iff an overlapping sibling price list of the
same pricing group already holds the commodity, or the target list itself
does; otherwise the item is persisted and returned. -/
theorem create_price_list_item_conflict (st : PricingStore)
    (data : PriceListItemData) (pl : PriceList)
    (hpl : st.priceLists.find? (fun l => l.id == data.priceListId) = some pl) :
    ((createPriceListItem st data).1.isOk = false ↔
      (∃ other ∈ st.priceLists, other.pricingGroupId = pl.pricingGroupId ∧
        other.id ≠ data.priceListId ∧
        datesOverlap pl.effectiveDate pl.expirationDate
          other.effectiveDate other.expirationDate = true ∧
        ∃ item ∈ st.items, item.priceListId = other.id ∧
          item.commodityId = data.commodityId) ∨
      (∃ item ∈ st.items, item.priceListId = data.priceListId ∧
        item.commodityId = data.commodityId)) ∧
    ((createPriceListItem st data).1.isOk = false →
      (createPriceListItem st data).2 = st) ∧
    (∀ item, (createPriceListItem st data).1 = Except.ok item →
      (createPriceListItem st data).2.items = st.items ++ [item] ∧
      item.priceListId = data.priceListId ∧
      item.commodityId = data.commodityId ∧
      item.price = data.price) := by
  have hval := validate_valid_iff st data.priceListId data.commodityId pl hpl
  rcases Bool.eq_false_or_eq_true
      ((validateCommodityUniqueness st data.priceListId data.commodityId none).valid) with hv | hv
  · have hres : createPriceListItem st data =
        (Except.ok (newPriceListItemOf data st.nextId),
          { st with items := st.items ++ [newPriceListItemOf data st.nextId],
                    nextId := st.nextId + 1 }) := by
      simp [createPriceListItem, hv]
    rw [hres]
    refine ⟨iff_of_false (fun h => Bool.noConfusion h) ?_, ?_, ?_⟩
    · intro hrhs
      have hcontra := hval.mpr hrhs
      rw [hv] at hcontra
      exact Bool.noConfusion hcontra
    · intro hko
      exact Bool.noConfusion hko
    · intro item hitem
      have hi := (Except.ok.inj hitem).symm
      subst hi
      exact ⟨rfl, rfl, rfl, rfl⟩
  · have hres : createPriceListItem st data =
        (Except.error "Commodity already has a price for overlapping dates", st) := by
      simp [createPriceListItem, hv]
    rw [hres]
    refine ⟨iff_of_true rfl (hval.mp hv), fun _ => rfl, ?_⟩
    intro item hcontra
    simp at hcontra

/-- Price list A of the C2 witness: effective days 0..100 in group 5. -/
def w2ListA : PriceList :=
  { id := 1, pricingGroupId := 5, name := "A", effectiveDate := 0,
    expirationDate := some 100, isActive := true }

/-- Price list B of the C2 witness: effective from day 50, open-ended, same
group. -/
def w2ListB : PriceList :=
  { id := 2, pricingGroupId := 5, name := "B", effectiveDate := 50,
    expirationDate := none, isActive := true }

/-- Existing item of the C2 witness: commodity 7 priced in list A. -/
def w2Item : NewPriceListItem :=
  { id := 10, priceListId := 1, commodityId := 7, price := 350,
    unit := "LB", currency := "USD" }

/-- Store of the C2 witness. -/
def w2St : PricingStore :=
  { groups := [], priceLists := [w2ListA, w2ListB], items := [w2Item],
    accounts := [], commodities := [], nextId := 20 }

/-- Creation payload of the C2 witness: commodity 7 into the overlapping
list B. -/
def w2Data : PriceListItemData :=
  { priceListId := 2, commodityId := 7, price := 375, unit := "LB",
    currency := "USD" }

/-- Witness for C2: creating the overlapping duplicate throws and leaves the
store untouched. -/
theorem create_price_list_item_conflict_witness :
    (createPriceListItem w2St w2Data).1.isOk = false ∧
    (createPriceListItem w2St w2Data).2 = w2St := by
  have H := create_price_list_item_conflict w2St w2Data w2ListB (by decide)
  have hko : (createPriceListItem w2St w2Data).1.isOk = false :=
    H.1.mpr (Or.inl ⟨w2ListA, by decide, by decide, by decide, by decide,
      w2Item, by decide, by decide, by decide⟩)
  exact ⟨hko, H.2.1 hko⟩

/-! Claim C4: getPrice resolution priority. -/

/-- Directional assigned pricing group of an account (claim-side
selector). -/
def assignedPricingGroupId (account : Account) : Direction → Option Nat
  | .buy => account.buyPricingGroupId
  | .sell => account.sellPricingGroupId

/-- C4: for an existing account and commodity, when the assigned group of
the direction yields no price but the direction's default group resolves
one, `getPrice` returns the default group's price; when the assigned group
does yield a price, that price is returned regardless of the default
group. -/
theorem get_price_resolution (st : PricingStore) (accountId commodityId : Nat)
    (direction : Direction) (date : Nat) (account : Account)
    (hA : st.accounts.find? (fun a => a.id == accountId) = some account)
    (commodity : Commodity)
    (hC : st.commodities.find? (fun c => c.id == commodityId) = some commodity) :
    (∀ gid p, assignedPricingGroupId account direction = some gid →
      findPriceInGroup st gid commodity date = some p →
      getPrice st accountId commodityId direction date = some p) ∧
    (∀ gid dg p, assignedPricingGroupId account direction = some gid →
      findPriceInGroup st gid commodity date = none →
      getDefaultPricingGroup st direction = some dg →
      findPriceInGroup st dg.id commodity date = some p →
      getPrice st accountId commodityId direction date = some p) := by
  constructor
  · intro gid p hgid hfind
    unfold getPrice
    rw [hA, hC]
    cases direction <;> simp only [assignedPricingGroupId] at hgid <;>
      simp [hgid, hfind]
  · intro gid dg p hgid hnone hdg hfind
    unfold getPrice
    rw [hA, hC]
    cases direction <;> simp only [assignedPricingGroupId] at hgid <;>
      simp [hgid, hnone, hdg, hfind]

/-- Assigned-but-empty buy group of the C4 witness. -/
def w4GroupA : PricingGroup :=
  { id := 1, name := "A", direction := Direction.buy, isDefault := false,
    isActive := true, updatedAt := 0 }

/-- Default buy group of the C4 witness, holding the only price list. -/
def w4GroupB : PricingGroup :=
  { id := 2, name := "B", direction := Direction.buy, isDefault := true,
    isActive := true, updatedAt := 0 }

/-- Account of the C4 witness, assigned to the empty group A. -/
def w4Account : Account :=
  { id := 5, buyPricingGroupId := some 1, sellPricingGroupId := none }

/-- Commodity of the C4 witness. -/
def w4Commodity : Commodity :=
  { id := 7, code := "CU", name := "Copper", defaultUnit := some "LB",
    isActive := true }

/-- Store of the C4 witness: only the default group B prices commodity 7. -/
def w4St : PricingStore :=
  { groups := [w4GroupA, w4GroupB],
    priceLists := [
      { id := 3, pricingGroupId := 2, name := "PB", effectiveDate := 0,
        expirationDate := none, isActive := true }],
    items := [
      { id := 4, priceListId := 3, commodityId := 7, price := 375,
        unit := "LB", currency := "USD" }],
    accounts := [w4Account],
    commodities := [w4Commodity],
    nextId := 20 }

/-- Price that group B resolves for commodity 7 in the C4 witness. -/
def w4Price : CommodityPrice :=
  { commodityId := 7, commodityName := "Copper", commodityCode := "CU",
    price := 375, unit := "LB", currency := "USD", priceListId := 3,
    priceListName := "PB", pricingGroupId := 2, pricingGroupName := "B",
    effectiveDate := 0, expirationDate := none }

/-- Witness for C4: the default group's price is returned when the assigned
group has none. -/
theorem get_price_resolution_witness :
    getPrice w4St 5 7 Direction.buy 10 = some w4Price ∧
    w4Price.pricingGroupId = w4GroupB.id :=
  ⟨(get_price_resolution w4St 5 7 Direction.buy 10 w4Account (by decide)
      w4Commodity (by decide)).2 1 w4GroupB w4Price (by decide) (by decide)
      (by decide) (by decide),
    by decide⟩

/-! Claim C5: findPriceInGroup picks the most recently effective list. -/

/-- Non-expiry of a price list at a date: no expiration date, or an
expiration date strictly after the date. -/
def notExpiredAt (date : Nat) : Option Nat → Prop
  | none => True
  | some e => date < e

instance (date : Nat) (o : Option Nat) : Decidable (notExpiredAt date o) :=
  match o with
  | none => Decidable.isTrue trivial
  | some e => inferInstanceAs (Decidable (date < e))

/-- Candidate condition of `findPriceInGroup`: member of the group, active,
effective at the date, not expired at the date. -/
def eligiblePriceList (groupId : Nat) (date : Nat) (pl : PriceList) : Prop :=
  pl.pricingGroupId = groupId ∧ pl.isActive = true ∧
  pl.effectiveDate ≤ date ∧ notExpiredAt date pl.expirationDate

/-- A price list holds an item for the commodity. -/
def priceListContains (st : PricingStore) (pl : PriceList)
    (commodityId : Nat) : Prop :=
  ∃ item ∈ st.items, item.priceListId = pl.id ∧ item.commodityId = commodityId

instance (groupId : Nat) (date : Nat) (pl : PriceList) :
    Decidable (eligiblePriceList groupId date pl) := by
  unfold eligiblePriceList
  infer_instance

instance (st : PricingStore) (pl : PriceList) (commodityId : Nat) :
    Decidable (priceListContains st pl commodityId) := by
  unfold priceListContains
  infer_instance

/-- Membership in `getActivePriceListsForDate` is exactly eligibility. -/
theorem mem_active_price_lists (st : PricingStore) (groupId : Nat) (date : Nat)
    (pl : PriceList) :
    pl ∈ getActivePriceListsForDate st groupId date ↔
      pl ∈ st.priceLists ∧ eligiblePriceList groupId date pl := by
  unfold getActivePriceListsForDate eligiblePriceList
  simp only [List.mem_filter, Bool.and_eq_true, beq_iff_eq, decide_eq_true_eq]
  cases h : pl.expirationDate with
  | none =>
    simp only [h, notExpiredAt]
    tauto
  | some e =>
    simp only [h, notExpiredAt, decide_eq_true_eq, gt_iff_lt]
    tauto

/-- A found price's source decomposition: `resolveLoop` returns the record
of the first price list holding the commodity, every earlier list holding
none. -/
theorem resolveLoop_eq_some (st : PricingStore) (commodity : Commodity)
    (group : PricingGroup) :
    ∀ pls cp, resolveLoop st commodity group pls = some cp →
      ∃ pre pl post item, pls = pre ++ pl :: post ∧
        (∀ q ∈ pre,
          (st.items.filter (fun item => item.priceListId == q.id)).find?
            (fun i => i.commodityId == commodity.id) = none) ∧
        (st.items.filter (fun item => item.priceListId == pl.id)).find?
          (fun i => i.commodityId == commodity.id) = some item ∧
        cp = resolvedPrice commodity group pl item := by
  intro pls
  induction pls with
  | nil =>
    intro cp h
    simp [resolveLoop] at h
  | cons pl rest ih =>
    intro cp h
    simp only [resolveLoop] at h
    cases hfind : (st.items.filter (fun item => item.priceListId == pl.id)).find?
        (fun i => i.commodityId == commodity.id) with
    | some item =>
      rw [hfind] at h
      refine ⟨[], pl, rest, item, rfl, by simp, hfind, ?_⟩
      exact (Option.some.inj h).symm
    | none =>
      rw [hfind] at h
      obtain ⟨pre, pl2, post, item, hdec, hpre, hf, hcp⟩ := ih cp h
      refine ⟨pl :: pre, pl2, post, item, by rw [hdec]; rfl, ?_, hf, hcp⟩
      intro q hq
      rcases List.mem_cons.mp hq with rfl | hq2
      · exact hfind
      · exact hpre q hq2

/-- A missed resolution: when `resolveLoop` returns none, no candidate list
holds the commodity. -/
theorem resolveLoop_eq_none (st : PricingStore) (commodity : Commodity)
    (group : PricingGroup) :
    ∀ pls, resolveLoop st commodity group pls = none →
      ∀ pl ∈ pls,
        (st.items.filter (fun item => item.priceListId == pl.id)).find?
          (fun i => i.commodityId == commodity.id) = none := by
  intro pls
  induction pls with
  | nil =>
    intro _ pl hmem
    simp at hmem
  | cons pl rest ih =>
    intro h q hq
    simp only [resolveLoop] at h
    cases hfind : (st.items.filter (fun item => item.priceListId == pl.id)).find?
        (fun i => i.commodityId == commodity.id) with
    | some item =>
      rw [hfind] at h
      simp at h
    | none =>
      rw [hfind] at h
      rcases List.mem_cons.mp hq with rfl | hq2
      · exact hfind
      · exact ih h q hq2

/-- Containment rephrased through the loop's item lookup. -/
theorem contains_iff_find (st : PricingStore) (commodity : Commodity)
    (pl : PriceList) :
    priceListContains st pl commodity.id ↔
      ((st.items.filter (fun item => item.priceListId == pl.id)).find?
        (fun i => i.commodityId == commodity.id)).isSome = true := by
  rw [List.find?_isSome]
  unfold priceListContains
  simp only [List.mem_filter, beq_iff_eq]
  tauto

/-- C5: for every pricing group, commodity and date, a price found by
`findPriceInGroup` always comes from an eligible (active, effective,
unexpired) list of the group holding the commodity; and when an eligible
list holding the commodity has a strictly later `effectiveDate` than every
other such list, its item is the one returned. -/
theorem find_price_most_recent (st : PricingStore) (groupId : Nat)
    (commodity : Commodity) (date : Nat) (group : PricingGroup)
    (hg : st.groups.find? (fun g => g.id == groupId) = some group) :
    (∀ cp, findPriceInGroup st groupId commodity date = some cp →
      ∃ pl ∈ st.priceLists, eligiblePriceList groupId date pl ∧
        cp.priceListId = pl.id ∧ cp.effectiveDate = pl.effectiveDate ∧
        priceListContains st pl commodity.id) ∧
    (∀ pl₁, pl₁ ∈ st.priceLists → eligiblePriceList groupId date pl₁ →
      priceListContains st pl₁ commodity.id →
      (∀ pl₂ ∈ st.priceLists, eligiblePriceList groupId date pl₂ →
        priceListContains st pl₂ commodity.id →
        pl₂ = pl₁ ∨ pl₂.effectiveDate < pl₁.effectiveDate) →
      ∃ cp, findPriceInGroup st groupId commodity date = some cp ∧
        cp.priceListId = pl₁.id ∧
        ∃ item ∈ st.items, item.priceListId = pl₁.id ∧
          item.commodityId = commodity.id ∧ cp.price = item.price) := by
  haveI : IsTotal PriceList (fun a b => b.effectiveDate ≤ a.effectiveDate) :=
    ⟨fun a b => le_total _ _⟩
  haveI : IsTrans PriceList (fun a b => b.effectiveDate ≤ a.effectiveDate) :=
    ⟨fun a b c hab hbc => le_trans hbc hab⟩
  have hunfold : findPriceInGroup st groupId commodity date =
      resolveLoop st commodity group
        ((getActivePriceListsForDate st groupId date).insertionSort
          (fun a b => b.effectiveDate ≤ a.effectiveDate)) := by
    simp [findPriceInGroup, hg]
  set sorted := (getActivePriceListsForDate st groupId date).insertionSort
    (fun a b => b.effectiveDate ≤ a.effectiveDate) with hs
  constructor
  · intro cp hcp
    rw [hunfold] at hcp
    obtain ⟨pre, pl, post, item, hdec, hpre, hfind, rfl⟩ :=
      resolveLoop_eq_some st commodity group sorted cp hcp
    have hplsorted : pl ∈ sorted := by
      rw [hdec]
      exact List.mem_append.mpr (Or.inr (List.mem_cons_self pl post))
    have hplactive : pl ∈ getActivePriceListsForDate st groupId date :=
      (List.perm_insertionSort _ _).mem_iff.mp hplsorted
    rcases (mem_active_price_lists st groupId date pl).mp hplactive with
      ⟨hmem, helig⟩
    have hitem_mem := List.mem_of_find?_eq_some hfind
    rcases List.mem_filter.mp hitem_mem with ⟨himem, hipl⟩
    have hicom := List.find?_some hfind
    exact ⟨pl, hmem, helig, rfl, rfl, item, himem, by simpa using hipl,
      by simpa using hicom⟩
  · intro pl₁ hmem₁ helig₁ hcont₁ hmax
    have hin₁ : pl₁ ∈ sorted :=
      (List.perm_insertionSort _ _).mem_iff.mpr
        ((mem_active_price_lists st groupId date pl₁).mpr ⟨hmem₁, helig₁⟩)
    have hfind₁ := (contains_iff_find st commodity pl₁).mp hcont₁
    rcases hres : resolveLoop st commodity group sorted with _ | cp
    · exfalso
      have hnone := resolveLoop_eq_none st commodity group sorted hres pl₁ hin₁
      rw [hnone] at hfind₁
      simp at hfind₁
    · obtain ⟨pre, pl', post, item, hdec, hpre, hfind, rfl⟩ :=
        resolveLoop_eq_some st commodity group sorted cp hres
      have hplsorted' : pl' ∈ sorted := by
        rw [hdec]
        exact List.mem_append.mpr (Or.inr (List.mem_cons_self pl' post))
      have hplactive' : pl' ∈ getActivePriceListsForDate st groupId date :=
        (List.perm_insertionSort _ _).mem_iff.mp hplsorted'
      rcases (mem_active_price_lists st groupId date pl').mp hplactive' with
        ⟨hmem', helig'⟩
      have hcont' : priceListContains st pl' commodity.id :=
        (contains_iff_find st commodity pl').mpr (by rw [hfind]; rfl)
      have hsorted : List.Sorted (fun a b => b.effectiveDate ≤ a.effectiveDate)
          sorted := List.sorted_insertionSort _ _
      rw [hdec] at hsorted hin₁
      have heq : pl' = pl₁ := by
        rcases List.mem_append.mp hin₁ with hpre₁ | hc
        · exfalso
          have hq := hpre pl₁ hpre₁
          rw [hq] at hfind₁
          simp at hfind₁
        · rcases List.mem_cons.mp hc with heq1 | hpost
          · exact heq1.symm
          · have hle : pl₁.effectiveDate ≤ pl'.effectiveDate := by
              have hp := (List.pairwise_append.mp hsorted).2.1
              exact (List.pairwise_cons.mp hp).1 pl₁ hpost
            rcases hmax pl' hmem' helig' hcont' with heq' | hlt
            · exact heq'
            · exact absurd hlt (not_lt.mpr hle)
      subst heq
      have hitem_mem := List.mem_of_find?_eq_some hfind
      rcases List.mem_filter.mp hitem_mem with ⟨himem, hipl⟩
      have hicom := List.find?_some hfind
      refine ⟨resolvedPrice commodity group pl' item, ?_, rfl, item, himem,
        by simpa using hipl, by simpa using hicom, rfl⟩
      rw [hunfold]
      exact hres

/-- Pricing group of the C5 witness. -/
def w5Group : PricingGroup :=
  { id := 1, name := "G", direction := Direction.buy, isDefault := false,
    isActive := true, updatedAt := 0 }

/-- Older price list of the C5 witness (effective from day 0). -/
def w5L1 : PriceList :=
  { id := 2, pricingGroupId := 1, name := "L1", effectiveDate := 0,
    expirationDate := none, isActive := true }

/-- Newer price list of the C5 witness (effective from day 50). -/
def w5L2 : PriceList :=
  { id := 3, pricingGroupId := 1, name := "L2", effectiveDate := 50,
    expirationDate := none, isActive := true }

/-- Commodity of the C5 witness. -/
def w5Commodity : Commodity :=
  { id := 7, code := "CU", name := "Copper", defaultUnit := some "LB",
    isActive := true }

/-- Store of the C5 witness: both lists are active and effective at day 60
and both price commodity 7. -/
def w5St : PricingStore :=
  { groups := [w5Group],
    priceLists := [w5L1, w5L2],
    items := [
      { id := 4, priceListId := 2, commodityId := 7, price := 300,
        unit := "LB", currency := "USD" },
      { id := 5, priceListId := 3, commodityId := 7, price := 400,
        unit := "LB", currency := "USD" }],
    accounts := [], commodities := [w5Commodity], nextId := 20 }

/-- Witness for C5: the later-effective list L2 wins. -/
theorem find_price_most_recent_witness :
    (∃ cp, findPriceInGroup w5St 1 w5Commodity 60 = some cp ∧
      cp.priceListId = w5L2.id ∧ cp.price = 400) := by
  obtain ⟨cp, hcp, hplid, item, _, hip, hic, hprice⟩ :=
    (find_price_most_recent w5St 1 w5Commodity 60 w5Group (by decide)).2
      w5L2 (by decide) (by decide)
      ⟨{ id := 5, priceListId := 3, commodityId := 7, price := 400,
         unit := "LB", currency := "USD" }, by decide, by decide, by decide⟩
      (by decide)
  have hcpval : cp = resolvedPrice w5Commodity w5Group w5L2
      { id := 5, priceListId := 3, commodityId := 7, price := 400,
        unit := "LB", currency := "USD" } := by
    apply Option.some.inj
    rw [← hcp]
    decide
  refine ⟨cp, hcp, hplid, ?_⟩
  rw [hcpval]
  rfl

/-! Claim C6: timeline continuity. -/

/-- The day loop emits one entry per day. -/
theorem timelineFrom_length (f : Nat → List InventoryMovement) :
    ∀ (days : List Nat) (r : Int), (timelineFrom f days r).length = days.length := by
  intro days
  induction days with
  | nil => intro r; rfl
  | cons d rest ih =>
    intro r
    simp only [timelineFrom, List.length_cons, ih]

/-- Shape of each emitted entry: its date is the walked day, its movements
are that day's group, and its incoming/outgoing are the day's positive and
negative-magnitude sums. -/
theorem timelineFrom_get (f : Nat → List InventoryMovement) :
    ∀ (days : List Nat) (r : Int) (k : Nat) (e : PositionTimelineEntry),
      (timelineFrom f days r)[k]? = some e →
      days[k]? = some e.date ∧
      e.movements = f e.date ∧
      e.incoming = ((e.movements.filter (fun m => decide (m.quantity > 0))).map
        (fun m => m.quantity)).sum ∧
      e.outgoing = ((e.movements.filter (fun m => decide (m.quantity < 0))).map
        (fun m => |m.quantity|)).sum := by
  intro days
  induction days with
  | nil =>
    intro r k e h
    simp [timelineFrom] at h
  | cons d rest ih =>
    intro r k e h
    cases k with
    | zero =>
      simp only [timelineFrom, List.getElem?_cons_zero, Option.some.injEq] at h
      subst h
      exact ⟨by simp, rfl, rfl, rfl⟩
    | succ k =>
      simp only [timelineFrom, List.getElem?_cons_succ] at h
      rw [List.getElem?_cons_succ]
      exact ih _ k e h

/-- Position of the first emitted entry: the running baseline plus that
day's net movement. -/
theorem timelineFrom_pos_zero (f : Nat → List InventoryMovement) (d : Nat)
    (rest : List Nat) (r : Int) :
    ∀ e, (timelineFrom f (d :: rest) r)[0]? = some e →
      e.position = r + e.incoming - e.outgoing := by
  intro e h
  simp only [timelineFrom, List.getElem?_cons_zero, Option.some.injEq] at h
  subst h
  rfl

/-- Position recurrence between consecutive emitted entries. -/
theorem timelineFrom_pos_succ (f : Nat → List InventoryMovement) :
    ∀ (days : List Nat) (r : Int) (k : Nat) (e₁ e₂ : PositionTimelineEntry),
      (timelineFrom f days r)[k]? = some e₁ →
      (timelineFrom f days r)[k + 1]? = some e₂ →
      e₂.position = e₁.position + e₂.incoming - e₂.outgoing := by
  intro days
  induction days with
  | nil =>
    intro r k e₁ e₂ h _
    simp [timelineFrom] at h
  | cons d rest ih =>
    intro r k e₁ e₂ h1 h2
    cases k with
    | zero =>
      simp only [timelineFrom, List.getElem?_cons_zero, Option.some.injEq] at h1
      simp only [timelineFrom, List.getElem?_cons_succ] at h2
      subst h1
      cases rest with
      | nil => simp [timelineFrom] at h2
      | cons d2 rest2 =>
        exact timelineFrom_pos_zero f d2 rest2 _ e₂ h2
    | succ k =>
      simp only [timelineFrom, List.getElem?_cons_succ] at h1 h2
      exact ih _ k e₁ e₂ h1 h2

/-- The walked days, indexed. -/
theorem timelineDays_get (startDate endDate : Nat) (k : Nat) :
    (timelineDays startDate endDate)[k]? =
      if k < endDate + 1 - startDate then some (startDate + k) else none := by
  simp only [timelineDays, List.getElem?_map]
  split
  · next hlt =>
    rw [List.getElem?_range hlt]
    rfl
  · next hge =>
    rw [List.getElem?_eq_none (by simpa using Nat.not_lt.mp hge)]
    rfl

/-- Number of walked days. -/
theorem timelineDays_length (startDate endDate : Nat) :
    (timelineDays startDate endDate).length = endDate + 1 - startDate := by
  simp [timelineDays]

/-- C6: for every commodity, location filter and window `startDate ≤
endDate`, the timeline has one entry per calendar day of the window; the
first entry's position is the current-inventory baseline plus that day's
`incoming - outgoing`; every later day's position is the previous day's
position plus its own `incoming - outgoing`; and a day with no movements
contributes zero on both sides, carrying the position forward unchanged. -/
theorem timeline_continuity (st : InventoryStore) (commodityId : Nat)
    (locationId : Option Nat) (startDate endDate : Nat) (today : Nat)
    (h : startDate ≤ endDate) :
    (getPositionTimeline st commodityId locationId startDate endDate today).length =
      endDate - startDate + 1 ∧
    (∀ e, (getPositionTimeline st commodityId locationId startDate endDate today)[0]? = some e →
      e.date = startDate ∧
      e.position = getCurrentInventory st commodityId locationId +
        e.incoming - e.outgoing) ∧
    (∀ k e, (getPositionTimeline st commodityId locationId startDate endDate today)[k]? = some e →
      e.date = startDate + k ∧
      (e.movements = [] → e.incoming = 0 ∧ e.outgoing = 0)) ∧
    (∀ k e₁ e₂,
      (getPositionTimeline st commodityId locationId startDate endDate today)[k]? = some e₁ →
      (getPositionTimeline st commodityId locationId startDate endDate today)[k + 1]? = some e₂ →
      e₂.position = e₁.position + e₂.incoming - e₂.outgoing) := by
  unfold getPositionTimeline
  refine ⟨?_, ?_, ?_, ?_⟩
  · rw [timelineFrom_length, timelineDays_length]
    omega
  · intro e h0
    have hget := timelineFrom_get _ _ _ 0 e h0
    have hpos : 0 < endDate + 1 - startDate := by omega
    have hdate : e.date = startDate := by
      have hd := hget.1
      rw [timelineDays_get, if_pos hpos] at hd
      simpa using hd.symm
    refine ⟨hdate, ?_⟩
    rcases hdays : timelineDays startDate endDate with _ | ⟨d, rest⟩
    · exfalso
      have hlen := timelineDays_length startDate endDate
      rw [hdays] at hlen
      simp at hlen
      omega
    · rw [hdays] at h0
      exact timelineFrom_pos_zero _ d rest _ e h0
  · intro k e hk
    have hget := timelineFrom_get _ _ _ k e hk
    have hdate : e.date = startDate + k := by
      have hd := hget.1
      rw [timelineDays_get] at hd
      rcases Nat.lt_or_ge k (endDate + 1 - startDate) with hlt | hge
      · rw [if_pos hlt] at hd
        simpa using hd.symm
      · rw [if_neg (Nat.not_lt.mpr hge)] at hd
        cases hd
    refine ⟨hdate, ?_⟩
    intro hempty
    rcases hget with ⟨_, _, hin, hout⟩
    rw [hempty] at hin hout
    simp at hin hout
    exact ⟨hin, hout⟩
  · intro k e₁ e₂ h1 h2
    exact timelineFrom_pos_succ _ _ _ k e₁ e₂ h1 h2

/-- Store for the C6 witness: 1000 units on hand and one open purchase
order of 500 pending units expected on day 4. -/
def w6St : InventoryStore :=
  { adjustments := [
      { id := 10, adjustmentNumber := 1, commodityId := 1,
        commodityCode := none, commodityName := none, locationId := none,
        adjustmentType := "count", quantity := 1000, unit := "LB",
        reason := none, adjustmentDate := 0, createdBy := "Current User",
        createdAt := 0, updatedAt := 0 }],
    purchaseOrders := [
      { id := 2, orderNumber := "PO-0001", status := "confirmed",
        facilityId := none,
        lineItems := [
          { id := 3, commodityId := 1, commodityName := "HMS 1",
            quantity := 500, receivedQuantity := some 0,
            shippedQuantity := none, unit := "LB" }],
        startDate := some 1, endDate := some 4, supplierName := "Acme" }],
    salesOrders := [], loads := [],
    commodities := [
      { id := 1, code := "HMS1", name := "HMS 1", defaultUnit := some "LB",
        isActive := true }],
    nextId := 20 }

/-- Day-3 entry of the C6 witness timeline. -/
def w6E0 : PositionTimelineEntry :=
  { date := 3, position := 1000, incoming := 0, outgoing := 0,
    movements := [] }

/-- Day-4 entry of the C6 witness timeline, carrying the pending PO. -/
def w6E1 : PositionTimelineEntry :=
  { date := 4, position := 1500, incoming := 500, outgoing := 0,
    movements := [
      { id := "po-2-3", type := "po_incoming", commodityId := 1,
        commodityName := "HMS 1", locationId := none, quantity := 500,
        unit := "LB", expectedDate := 4, sourceId := 2,
        sourceType := "purchaseOrder", sourceNumber := "PO-0001",
        partyName := "Acme", status := "pending" }] }

/-- Witness for C6 on the concrete window day 3 to day 5. -/
theorem timeline_continuity_witness :
    (getPositionTimeline w6St 1 none 3 5 0).length = 5 - 3 + 1 ∧
    (getPositionTimeline w6St 1 none 3 5 0)[0]? = some w6E0 ∧
    (getPositionTimeline w6St 1 none 3 5 0)[1]? = some w6E1 ∧
    w6E1.position = w6E0.position + w6E1.incoming - w6E1.outgoing :=
  ⟨(timeline_continuity w6St 1 none 3 5 0 (by decide)).1,
   by decide, by decide,
   (timeline_continuity w6St 1 none 3 5 0 (by decide)).2.2.2 0 w6E0 w6E1
     (by decide) (by decide)⟩

/-! Claim C3: per-direction default uniqueness across operation
sequences. -/

/-- Pointwise effect of the whole clearing loop on one stored element. -/
def applyClears (now : Nat) : List PricingGroup → PricingGroup → PricingGroup
  | [], x => x
  | g :: ds, x => applyClears now ds (clearOne now g x)

/-- Clearing updates never change an element's id. -/
theorem clearOne_id (now : Nat) (g x : PricingGroup) :
    (clearOne now g x).id = x.id := by
  unfold clearOne
  split
  · next h => exact (beq_iff_eq.mp h).symm
  · rfl

/-- Clearing updates never set a default. -/
theorem clearOne_isDefault_false (now : Nat) (g x : PricingGroup)
    (h : x.isDefault = false) : (clearOne now g x).isDefault = false := by
  unfold clearOne
  split
  · rfl
  · exact h

/-- The clearing fold over the collection is a single map of the pointwise
effect. -/
theorem clear_fold_eq_map (now : Nat) :
    ∀ (ds gs : List PricingGroup),
      ds.foldl (fun gs g => gs.map (fun x => clearOne now g x)) gs =
        gs.map (applyClears now ds) := by
  intro ds
  induction ds with
  | nil =>
    intro gs
    simp only [List.foldl_nil]
    exact (List.map_id' gs).symm
  | cons g ds ih =>
    intro gs
    rw [List.foldl_cons, ih, List.map_map]
    rfl

/-- The pointwise clearing effect preserves ids. -/
theorem applyClears_id (now : Nat) :
    ∀ (ds : List PricingGroup) (x : PricingGroup),
      (applyClears now ds x).id = x.id := by
  intro ds
  induction ds with
  | nil => intro x; rfl
  | cons g ds ih =>
    intro x
    show (applyClears now ds (clearOne now g x)).id = x.id
    rw [ih, clearOne_id]

/-- The pointwise clearing effect keeps cleared elements cleared. -/
theorem applyClears_isDefault_false (now : Nat) :
    ∀ (ds : List PricingGroup) (x : PricingGroup), x.isDefault = false →
      (applyClears now ds x).isDefault = false := by
  intro ds
  induction ds with
  | nil => intro x h; exact h
  | cons g ds ih =>
    intro x h
    exact ih _ (clearOne_isDefault_false now g x h)

/-- The pointwise clearing effect either leaves an element untouched or
leaves it non-default. -/
theorem applyClears_cases (now : Nat) :
    ∀ (ds : List PricingGroup) (x : PricingGroup),
      applyClears now ds x = x ∨ (applyClears now ds x).isDefault = false := by
  intro ds
  induction ds with
  | nil => intro x; left; rfl
  | cons g ds ih =>
    intro x
    by_cases h : (x.id == g.id) = true
    · right
      show (applyClears now ds (clearOne now g x)).isDefault = false
      apply applyClears_isDefault_false
      unfold clearOne
      rw [if_pos h]
    · have hx : clearOne now g x = x := by
        unfold clearOne
        rw [if_neg h]
      show applyClears now ds (clearOne now g x) = x ∨
        (applyClears now ds (clearOne now g x)).isDefault = false
      rw [hx]
      exact ih x

/-- An element whose id is hit by the clearing loop ends up non-default. -/
theorem applyClears_hit (now : Nat) :
    ∀ (ds : List PricingGroup) (x : PricingGroup),
      (∃ g ∈ ds, g.id = x.id) → (applyClears now ds x).isDefault = false := by
  intro ds
  induction ds with
  | nil =>
    rintro x ⟨g, hg, _⟩
    simp at hg
  | cons g ds ih =>
    rintro x ⟨g2, hg2, hgid⟩
    show (applyClears now ds (clearOne now g x)).isDefault = false
    by_cases hid : (x.id == g.id) = true
    · apply applyClears_isDefault_false
      unfold clearOne
      rw [if_pos hid]
    · have hx : clearOne now g x = x := by
        unfold clearOne
        rw [if_neg hid]
      rw [hx]
      rcases List.mem_cons.mp hg2 with rfl | hg2m
      · exact absurd (beq_iff_eq.mpr hgid.symm) hid
      · exact ih x ⟨g2, hg2m, hgid⟩

/-- Groups after `clearDefaultForDirection`, as a map. -/
theorem clear_groups (st : PricingStore) (d : Direction) (now : Nat) :
    (clearDefaultForDirection st d now).groups =
      st.groups.map (applyClears now
        (st.groups.filter (fun g => g.direction == d && g.isDefault))) := by
  unfold clearDefaultForDirection
  exact clear_fold_eq_map now _ _

/-- Clearing does not change the stored ids. -/
theorem clear_ids (st : PricingStore) (d : Direction) (now : Nat) :
    (clearDefaultForDirection st d now).groups.map (fun g => g.id) =
      st.groups.map (fun g => g.id) := by
  rw [clear_groups, List.map_map]
  exact List.map_congr_left (fun x _ => applyClears_id now _ x)

/-- Number of default groups of a direction. -/
def defaultCount (st : PricingStore) (d : Direction) : Nat :=
  st.groups.countP (fun g => g.direction == d && g.isDefault)

/-- The claimed invariant: at most one default group per direction. -/
def DefaultUnique (st : PricingStore) : Prop :=
  ∀ d, defaultCount st d ≤ 1

instance (st : PricingStore) : Decidable (DefaultUnique st) := by
  unfold DefaultUnique
  infer_instance

/-- Store well-formedness maintained by the keyed collection store: stored
ids are distinct and below the fresh-id counter. -/
def WFStore (st : PricingStore) : Prop :=
  (st.groups.map (fun g => g.id)).Nodup ∧ ∀ g ∈ st.groups, g.id < st.nextId

instance (st : PricingStore) : Decidable (WFStore st) := by
  unfold WFStore
  infer_instance

/-- After clearing a direction it has no default group. -/
theorem defaultCount_clear_self (st : PricingStore) (d : Direction)
    (now : Nat) : defaultCount (clearDefaultForDirection st d now) d = 0 := by
  unfold defaultCount
  rw [clear_groups]
  apply List.countP_eq_zero.mpr
  intro y hy
  rcases List.mem_map.mp hy with ⟨x, hx, rfl⟩
  intro hpy
  rcases applyClears_cases now _ x with heq | hfalse
  · have hhit : (applyClears now
        (st.groups.filter (fun g => g.direction == d && g.isDefault)) x).isDefault = false := by
      apply applyClears_hit
      refine ⟨x, List.mem_filter.mpr ⟨hx, ?_⟩, rfl⟩
      rw [heq] at hpy
      exact hpy
    rcases (Bool.and_eq_true _ _).mp hpy with ⟨_, hdef⟩
    rw [hhit] at hdef
    cases hdef
  · rcases (Bool.and_eq_true _ _).mp hpy with ⟨_, hdef⟩
    rw [hfalse] at hdef
    cases hdef

/-- Clearing one direction does not increase any direction's default
count. -/
theorem defaultCount_clear_le (st : PricingStore) (d : Direction) (now : Nat)
    (d' : Direction) :
    defaultCount (clearDefaultForDirection st d now) d' ≤ defaultCount st d' := by
  unfold defaultCount
  rw [clear_groups, List.countP_map]
  apply List.countP_mono_left
  intro x hx hpx
  rcases applyClears_cases now _ x with heq | hfalse
  · show _ = true
    rw [← heq]
    exact hpx
  · exfalso
    rcases (Bool.and_eq_true _ _).mp hpx with ⟨_, hdef⟩
    rw [hfalse] at hdef
    cases hdef

/-- Clearing preserves store well-formedness. -/
theorem clear_WF (st : PricingStore) (d : Direction) (now : Nat)
    (h : WFStore st) : WFStore (clearDefaultForDirection st d now) := by
  constructor
  · rw [clear_ids]
    exact h.1
  · intro g hg
    rw [clear_groups] at hg
    rcases List.mem_map.mp hg with ⟨x, hx, rfl⟩
    show (applyClears now _ x).id < (clearDefaultForDirection st d now).nextId
    rw [applyClears_id]
    exact h.2 x hx

/-- Clearing preserves the default-uniqueness invariant. -/
theorem clear_inv (st : PricingStore) (d : Direction) (now : Nat)
    (h : DefaultUnique st) :
    DefaultUnique (clearDefaultForDirection st d now) :=
  fun d' => le_trans (defaultCount_clear_le st d now d') (h d')

/-- Splitting a keyed collection at a found id: with distinct ids, the found
record is the unique holder of the id. -/
theorem find_split (gs : List PricingGroup) (id : Nat) (ex : PricingGroup)
    (h : gs.find? (fun g => g.id == id) = some ex)
    (hnd : (gs.map (fun g => g.id)).Nodup) :
    ∃ l₁ l₂, gs = l₁ ++ ex :: l₂ ∧ ex.id = id ∧
      (∀ x ∈ l₁, x.id ≠ id) ∧ (∀ x ∈ l₂, x.id ≠ id) := by
  have hexid : ex.id = id := by simpa using List.find?_some h
  obtain ⟨l₁, l₂, rfl⟩ := List.append_of_mem (List.mem_of_find?_eq_some h)
  rw [List.map_append, List.map_cons, List.nodup_append] at hnd
  rcases hnd with ⟨_, h2, hdisj⟩
  refine ⟨l₁, l₂, rfl, hexid, ?_, ?_⟩
  · intro x hx hxid
    exact hdisj (List.mem_map_of_mem _ hx)
      (by rw [hxid, ← hexid]; exact List.mem_cons_self _ _)
  · intro x hx hxid
    rcases List.nodup_cons.mp h2 with ⟨hnotin, _⟩
    apply hnotin
    have hxex : x.id = ex.id := by rw [hxid, hexid]
    exact hxex ▸ List.mem_map_of_mem _ hx

/-- Replacing by an id misses every element of another id. -/
theorem map_replace_miss (upd : PricingGroup) (id : Nat) :
    ∀ (l : List PricingGroup), (∀ x ∈ l, x.id ≠ id) →
      l.map (fun x => if x.id == id then upd else x) = l := by
  intro l
  induction l with
  | nil => intro _; rfl
  | cons a l ih =>
    intro hl
    rw [List.map_cons,
      if_neg (fun hc => hl a (List.mem_cons_self a l) (beq_iff_eq.mp hc)),
      ih (fun x hx => hl x (List.mem_cons_of_mem a hx))]

/-- Replacing the unique holder of an id in a keyed collection. -/
theorem map_replace_split (l₁ l₂ : List PricingGroup) (ex upd : PricingGroup)
    (id : Nat) (hex : ex.id = id)
    (h1 : ∀ x ∈ l₁, x.id ≠ id) (h2 : ∀ x ∈ l₂, x.id ≠ id) :
    (l₁ ++ ex :: l₂).map (fun x => if x.id == id then upd else x) =
      l₁ ++ upd :: l₂ := by
  rw [List.map_append, List.map_cons, map_replace_miss upd id l₁ h1,
    map_replace_miss upd id l₂ h2, if_pos (beq_iff_eq.mpr hex)]

/-- Replacing by an id with an id-preserving record keeps the stored ids. -/
theorem replace_ids (l : List PricingGroup) (id : Nat) (upd : PricingGroup)
    (hupd : upd.id = id) :
    (l.map (fun x => if x.id == id then upd else x)).map (fun g => g.id) =
      l.map (fun g => g.id) := by
  rw [List.map_map]
  apply List.map_congr_left
  intro x _
  show (if x.id == id then upd else x).id = x.id
  split
  · next h => rw [hupd]; exact (beq_iff_eq.mp h).symm
  · rfl

/-- Count over a split keyed collection. -/
theorem countP_split (p : PricingGroup → Bool) (l₁ l₂ : List PricingGroup)
    (a : PricingGroup) :
    List.countP p (l₁ ++ a :: l₂) =
      List.countP p l₁ + List.countP p l₂ + (if p a = true then 1 else 0) := by
  rw [List.countP_append, List.countP_cons]
  omega

/-- Result state of `updatePricingGroup` on a found id. -/
theorem update_result (st : PricingStore) (id : Nat)
    (data : PricingGroupPatch) (now : Nat) (ex : PricingGroup)
    (h : st.groups.find? (fun g => g.id == id) = some ex) :
    (updatePricingGroup st id data now).2 =
      { (if data.isDefault = some true ∧ ex.isDefault = false then
          clearDefaultForDirection st ex.direction now else st) with
        groups := (if data.isDefault = some true ∧ ex.isDefault = false then
          clearDefaultForDirection st ex.direction now else st).groups.map
            (fun x => if x.id == id then mergeGroup ex data id now else x) } := by
  unfold updatePricingGroup
  rw [h]

/-- One `updatePricingGroup` call whose payload omits the direction field
preserves well-formedness and default uniqueness. -/
theorem update_WF_inv (st : PricingStore) (id : Nat)
    (data : PricingGroupPatch) (now : Nat) (hwf : WFStore st)
    (hinv : DefaultUnique st) (hdir : data.direction = none) :
    WFStore (updatePricingGroup st id data now).2 ∧
      DefaultUnique (updatePricingGroup st id data now).2 := by
  cases hfind : st.groups.find? (fun g => g.id == id) with
  | none =>
    have hid : (updatePricingGroup st id data now).2 = st := by
      unfold updatePricingGroup
      rw [hfind]
    rw [hid]
    exact ⟨hwf, hinv⟩
  | some ex =>
    obtain ⟨l₁, l₂, hsplit, hexid, h1, h2⟩ := find_split st.groups id ex hfind hwf.1
    have hres := update_result st id data now ex hfind
    have hmdir : (mergeGroup ex data id now).direction = ex.direction := by
      show data.direction.getD ex.direction = ex.direction
      rw [hdir]
      rfl
    by_cases hcond : data.isDefault = some true ∧ ex.isDefault = false
    · rw [if_pos hcond] at hres
      have hids : (updatePricingGroup st id data now).2.groups.map (fun g => g.id) =
          st.groups.map (fun g => g.id) := by
        rw [hres]
        show ((clearDefaultForDirection st ex.direction now).groups.map
          (fun x => if x.id == id then mergeGroup ex data id now else x)).map
            (fun g => g.id) = _
        rw [replace_ids (clearDefaultForDirection st ex.direction now).groups id
          (mergeGroup ex data id now) rfl]
        exact clear_ids st ex.direction now
      have hnext : (updatePricingGroup st id data now).2.nextId = st.nextId := by
        rw [hres]
        rfl
      constructor
      · constructor
        · rw [hids]
          exact hwf.1
        · intro g hg
          have hgid : g.id ∈ (updatePricingGroup st id data now).2.groups.map
              (fun g => g.id) := List.mem_map_of_mem _ hg
          rw [hids] at hgid
          rcases List.mem_map.mp hgid with ⟨y, hy, hyid⟩
          rw [hnext, ← hyid]
          exact hwf.2 y hy
      · intro d'
        have hgroups1 : (clearDefaultForDirection st ex.direction now).groups =
            (l₁.map (applyClears now (st.groups.filter
              (fun g => g.direction == ex.direction && g.isDefault)))) ++
            applyClears now (st.groups.filter
              (fun g => g.direction == ex.direction && g.isDefault)) ex ::
            (l₂.map (applyClears now (st.groups.filter
              (fun g => g.direction == ex.direction && g.isDefault)))) := by
          rw [clear_groups, hsplit, List.map_append, List.map_cons]
        have hgroups2 : (updatePricingGroup st id data now).2.groups =
            (l₁.map (applyClears now (st.groups.filter
              (fun g => g.direction == ex.direction && g.isDefault)))) ++
            mergeGroup ex data id now ::
            (l₂.map (applyClears now (st.groups.filter
              (fun g => g.direction == ex.direction && g.isDefault)))) := by
          rw [hres]
          show (clearDefaultForDirection st ex.direction now).groups.map _ = _
          rw [hgroups1]
          apply map_replace_split
          · rw [applyClears_id]
            exact hexid
          · intro x hx
            rcases List.mem_map.mp hx with ⟨y, hy, rfl⟩
            rw [applyClears_id]
            exact h1 y hy
          · intro x hx
            rcases List.mem_map.mp hx with ⟨y, hy, rfl⟩
            rw [applyClears_id]
            exact h2 y hy
        have hcle := defaultCount_clear_le st ex.direction now d'
        have hcself := defaultCount_clear_self st ex.direction now
        unfold defaultCount at hcle hcself ⊢
        rw [hgroups1, countP_split] at hcle hcself
        rw [hgroups2, countP_split]
        by_cases hd : d' = ex.direction
        · rw [hd]
          have hbound : (if ((mergeGroup ex data id now).direction == ex.direction &&
              (mergeGroup ex data id now).isDefault) = true then 1 else 0) ≤ 1 := by
            split <;> omega
          omega
        · have hPm : ((mergeGroup ex data id now).direction == d' &&
              (mergeGroup ex data id now).isDefault) = false := by
            rw [hmdir, beq_eq_false_iff_ne.mpr (fun hcc => hd hcc.symm)]
            rfl
          have hz : (if ((mergeGroup ex data id now).direction == d' &&
              (mergeGroup ex data id now).isDefault) = true then 1 else 0) = 0 := by
            simp [hPm]
          have hst := hinv d'
          unfold defaultCount at hst
          omega
    · rw [if_neg hcond] at hres
      have hgroups2 : (updatePricingGroup st id data now).2.groups =
          l₁ ++ mergeGroup ex data id now :: l₂ := by
        rw [hres]
        show st.groups.map _ = _
        rw [hsplit]
        exact map_replace_split l₁ l₂ ex _ id hexid h1 h2
      have hids : (updatePricingGroup st id data now).2.groups.map (fun g => g.id) =
          st.groups.map (fun g => g.id) := by
        rw [hres]
        show (st.groups.map _).map _ = _
        exact replace_ids _ _ _ rfl
      have hnext : (updatePricingGroup st id data now).2.nextId = st.nextId := by
        rw [hres]
      constructor
      · constructor
        · rw [hids]
          exact hwf.1
        · intro g hg
          have hgid : g.id ∈ (updatePricingGroup st id data now).2.groups.map
              (fun g => g.id) := List.mem_map_of_mem _ hg
          rw [hids] at hgid
          rcases List.mem_map.mp hgid with ⟨y, hy, hyid⟩
          rw [hnext, ← hyid]
          exact hwf.2 y hy
      · intro d'
        have himp : ((mergeGroup ex data id now).direction == d' &&
            (mergeGroup ex data id now).isDefault) = true →
            (ex.direction == d' && ex.isDefault) = true := by
          intro hm
          rcases (Bool.and_eq_true _ _).mp hm with ⟨hdirb, hdef⟩
          have hdir_ex : (ex.direction == d') = true := by
            rw [← hmdir]
            exact hdirb
          have hdef_ex : ex.isDefault = true := by
            have hmd : (mergeGroup ex data id now).isDefault =
                data.isDefault.getD ex.isDefault := rfl
            rw [hmd] at hdef
            cases hopt : data.isDefault with
            | none =>
              rw [hopt] at hdef
              exact hdef
            | some b =>
              rw [hopt] at hdef
              cases b with
              | true =>
                rcases Bool.eq_false_or_eq_true ex.isDefault with hexd | hexd
                · exact hexd
                · exact absurd ⟨hopt, hexd⟩ hcond
              | false => exact absurd hdef (by simp)
          exact (Bool.and_eq_true _ _).mpr ⟨hdir_ex, hdef_ex⟩
        have hst := hinv d'
        unfold defaultCount at hst ⊢
        rw [hsplit, countP_split] at hst
        rw [hgroups2, countP_split]
        have hle : (if ((mergeGroup ex data id now).direction == d' &&
            (mergeGroup ex data id now).isDefault) = true then 1 else 0) ≤
            (if (ex.direction == d' && ex.isDefault) = true then 1 else 0) := by
          split
          · next hm => rw [if_pos (himp hm)]
          · omega
        omega

/-- Appending a freshly numbered group preserves well-formedness and, when
the new group is default, requires its direction to have been cleared. -/
theorem append_group_WF_inv (st1 : PricingStore) (data : PricingGroupData)
    (now : Nat) (hwf1 : WFStore st1) (hinv1 : DefaultUnique st1)
    (hcount : data.isDefault = true → defaultCount st1 data.direction = 0) :
    WFStore { st1 with
        groups := st1.groups ++ [newPricingGroup data st1.nextId now],
        nextId := st1.nextId + 1 } ∧
    DefaultUnique { st1 with
        groups := st1.groups ++ [newPricingGroup data st1.nextId now],
        nextId := st1.nextId + 1 } := by
  constructor
  · constructor
    · show ((st1.groups ++ [newPricingGroup data st1.nextId now]).map
        (fun g => g.id)).Nodup
      rw [List.map_append, List.nodup_append]
      refine ⟨hwf1.1, by simp, ?_⟩
      intro a ha hb
      simp only [List.map_cons, List.map_nil, List.mem_singleton] at hb
      rcases List.mem_map.mp ha with ⟨g, hgmem, rfl⟩
      have hlt := hwf1.2 g hgmem
      have hbid : g.id = st1.nextId := hb
      omega
    · intro g hg
      rcases List.mem_append.mp hg with hg1 | hg2
      · have := hwf1.2 g hg1
        show g.id < st1.nextId + 1
        omega
      · simp only [List.mem_singleton] at hg2
        rw [hg2]
        show st1.nextId < st1.nextId + 1
        omega
  · intro d'
    show List.countP (fun g => g.direction == d' && g.isDefault)
      (st1.groups ++ [newPricingGroup data st1.nextId now]) ≤ 1
    rw [List.countP_append]
    have hsing : List.countP (fun g => g.direction == d' && g.isDefault)
        [newPricingGroup data st1.nextId now] =
        if (data.direction == d' && data.isDefault) = true then 1 else 0 := by
      rw [List.countP_cons, List.countP_nil, Nat.zero_add]
      rfl
    rw [hsing]
    by_cases hd : data.isDefault = true
    · by_cases hdd : data.direction = d'
      · have h0 := hcount hd
        unfold defaultCount at h0
        rw [hdd] at h0
        have hb : (if (data.direction == d' && data.isDefault) = true
            then 1 else 0) ≤ 1 := by
          split <;> omega
        omega
      · have hx : (data.direction == d' && data.isDefault) = false := by
          rw [beq_eq_false_iff_ne.mpr hdd]
          rfl
        have hz : (if (data.direction == d' && data.isDefault) = true
            then 1 else 0) = 0 := by
          rw [hx]
          simp
        have := hinv1 d'
        unfold defaultCount at this
        omega
    · have hfalse : data.isDefault = false := by
        revert hd
        cases data.isDefault <;> simp
      have hx : (data.direction == d' && data.isDefault) = false := by
        rw [hfalse, Bool.and_false]
      have hz : (if (data.direction == d' && data.isDefault) = true
          then 1 else 0) = 0 := by
        rw [hx]
        simp
      have := hinv1 d'
      unfold defaultCount at this
      omega

/-- One `createPricingGroup` call preserves well-formedness and default
uniqueness. -/
theorem create_WF_inv (st : PricingStore) (data : PricingGroupData)
    (now : Nat) (hwf : WFStore st) (hinv : DefaultUnique st) :
    WFStore (createPricingGroup st data now).2 ∧
      DefaultUnique (createPricingGroup st data now).2 := by
  by_cases hdef : data.isDefault = true
  · have hres : (createPricingGroup st data now).2 =
        { clearDefaultForDirection st data.direction now with
          groups := (clearDefaultForDirection st data.direction now).groups ++
            [newPricingGroup data
              (clearDefaultForDirection st data.direction now).nextId now],
          nextId := (clearDefaultForDirection st data.direction now).nextId + 1 } := by
      unfold createPricingGroup
      rw [if_pos hdef]
    rw [hres]
    exact append_group_WF_inv _ data now
      (clear_WF st data.direction now hwf)
      (clear_inv st data.direction now hinv)
      (fun _ => defaultCount_clear_self st data.direction now)
  · have hres : (createPricingGroup st data now).2 =
        { st with
          groups := st.groups ++ [newPricingGroup data st.nextId now],
          nextId := st.nextId + 1 } := by
      unfold createPricingGroup
      rw [if_neg hdef]
    rw [hres]
    exact append_group_WF_inv st data now hwf hinv (fun h => absurd h hdef)

/-- One `setAsDefault` call preserves well-formedness and default
uniqueness. -/
theorem setDefault_WF_inv (st : PricingStore) (id : Nat) (now : Nat)
    (hwf : WFStore st) (hinv : DefaultUnique st) :
    WFStore (setAsDefault st id now).2 ∧
      DefaultUnique (setAsDefault st id now).2 := by
  unfold setAsDefault
  cases hfind : st.groups.find? (fun g => g.id == id) with
  | none => exact ⟨hwf, hinv⟩
  | some group =>
    exact update_WF_inv _ id _ now
      (clear_WF st group.direction now hwf)
      (clear_inv st group.direction now hinv) rfl

/-- One pricing-registry call of the claim's operation sequences. -/
inductive PricingOp where
  | create (data : PricingGroupData)
  | update (id : Nat) (data : PricingGroupPatch)
  | setDefault (id : Nat)
deriving DecidableEq

/-- Execution of one operation (the returned value is discarded). -/
def execOp (now : Nat) (st : PricingStore) : PricingOp → PricingStore
  | .create data => (createPricingGroup st data now).2
  | .update id data => (updatePricingGroup st id data now).2
  | .setDefault id => (setAsDefault st id now).2

/-- Execution of a sequence of operations, run to completion in order. -/
def execOps (now : Nat) (st : PricingStore) (ops : List PricingOp) :
    PricingStore :=
  ops.foldl (execOp now) st

/-- An operation whose payload leaves the stored direction untouched: any
create or setAsDefault call, and updates whose payload omits `direction`. -/
def keepsDirection : PricingOp → Bool
  | .update _ data => data.direction == none
  | _ => true

/-- Single-step preservation of well-formedness and default uniqueness. -/
theorem execOp_WF_inv (now : Nat) (st : PricingStore) (op : PricingOp)
    (hwf : WFStore st) (hinv : DefaultUnique st)
    (hsafe : keepsDirection op = true) :
    WFStore (execOp now st op) ∧ DefaultUnique (execOp now st op) := by
  cases op with
  | create data => exact create_WF_inv st data now hwf hinv
  | update id data =>
    have hdir : data.direction = none := by
      have hb : (data.direction == none) = true := hsafe
      simpa using hb
    exact update_WF_inv st id data now hwf hinv hdir
  | setDefault id => exact setDefault_WF_inv st id now hwf hinv

/-- C3 amended: starting from a well-formed store with at most one default
group per direction, any sequence of createPricingGroup, updatePricingGroup
and setAsDefault calls in which every update payload omits the `direction`
field preserves the invariant: at most one default group per direction.
(The counterexample shows a direction-changing update breaks it.) -/
theorem default_unique_preserved (st : PricingStore) (ops : List PricingOp)
    (now : Nat) (hwf : WFStore st) (hinv : DefaultUnique st)
    (hsafe : ∀ op ∈ ops, keepsDirection op = true) :
    DefaultUnique (execOps now st ops) := by
  suffices h : ∀ (ops : List PricingOp) (st : PricingStore), WFStore st →
      DefaultUnique st → (∀ op ∈ ops, keepsDirection op = true) →
      WFStore (execOps now st ops) ∧ DefaultUnique (execOps now st ops) by
    exact (h ops st hwf hinv hsafe).2
  intro ops
  induction ops with
  | nil =>
    intro st hwf1 hinv1 _
    exact ⟨hwf1, hinv1⟩
  | cons op ops ih =>
    intro st hwf1 hinv1 hsafe1
    have hstep := execOp_WF_inv now st op hwf1 hinv1
      (hsafe1 op (List.mem_cons_self _ _))
    exact ih (execOp now st op) hstep.1 hstep.2
      (fun o ho => hsafe1 o (List.mem_cons_of_mem _ ho))

/-- Default buy group of the C3 stores. -/
def c3GroupA : PricingGroup :=
  { id := 0, name := "A", direction := Direction.buy, isDefault := true,
    isActive := true, updatedAt := 0 }

/-- Default sell group of the C3 stores. -/
def c3GroupB : PricingGroup :=
  { id := 1, name := "B", direction := Direction.sell, isDefault := true,
    isActive := true, updatedAt := 0 }

/-- Store with one default group per direction: the invariant holds. -/
def c3St : PricingStore :=
  { groups := [c3GroupA, c3GroupB], priceLists := [], items := [],
    accounts := [], commodities := [], nextId := 2 }

/-- The breaking call: an update that moves the default buy group into the
sell direction. -/
def c3Op : PricingOp :=
  PricingOp.update 0
    { name := none, direction := some Direction.sell, isDefault := none,
      isActive := none }

/-- C3 counterexample: the claim as stated is false — one direction-changing
`updatePricingGroup` call turns a store satisfying the invariant into one
with two default sell groups. -/
theorem default_unique_counterexample :
    DefaultUnique c3St ∧ WFStore c3St ∧
      ¬ DefaultUnique (execOps 5 c3St [c3Op]) := by
  decide

/-- Safe operation sequence for the C3 witness: a setAsDefault, a default
create, and a direction-free update. -/
def w3Ops : List PricingOp :=
  [PricingOp.setDefault 0,
   PricingOp.create
     { name := "C", direction := Direction.buy, isDefault := true,
       isActive := true },
   PricingOp.update 1
     { name := none, direction := none, isDefault := some false,
       isActive := none }]

/-- Witness for the amended C3 at a concrete store and sequence. -/
theorem default_unique_preserved_witness :
    WFStore c3St ∧ DefaultUnique c3St ∧
      (∀ op ∈ w3Ops, keepsDirection op = true) ∧
      DefaultUnique (execOps 7 c3St w3Ops) :=
  ⟨by decide, by decide, by decide,
    default_unique_preserved c3St w3Ops 7 (by decide) (by decide) (by decide)⟩

end Rematter
